import Mathlib

/-!
Shallow embedding of the electrolyzer repository:
  * `electrolyzer/stack.py`   — the per-stack electrochemical / degradation model,
  * `electrolyzer/electrolyzer_supervisor.py` — the fleet supervisor.

Machine floats are modelled as rationals (`ℚ`).  The cell-level electrochemical
model (`PEMCell` / `AlkalineCell`), the fitted polarization curve
(`scipy.optimize.curve_fit` output applied through `electrolyzer_model`) and the
external `rainflow` library are external collaborators, out of scope per the
specification; they are parametrised by the `CellModel` structure below.
Python divisions that raise `ZeroDivisionError` are modelled with `Option`.
`np.nan_to_num` of a 0/0 is modelled by the explicit zero branches.
Write-only history buffers that feed no claimed behaviour
(`degradation_history`, `power_input_history`) are omitted from the state.
-/

/-- Elementwise sum of two equal-length vectors (numpy `a + b`). -/
def listAdd (a b : List ℚ) : List ℚ := List.zipWith (· + ·) a b

/-- Elementwise difference of two equal-length vectors (numpy `a - b`). -/
def listSub (a b : List ℚ) : List ℚ := List.zipWith (· - ·) a b

/-- Dot product (numpy `np.dot`). -/
def dotQ (a b : List ℚ) : ℚ := (List.zipWith (· * ·) a b).sum

/-- Python `max` of a (nonempty) list; `0` on the empty list. -/
def listMax : List ℚ → ℚ
  | [] => 0
  | x :: xs => xs.foldl max x

/-- Python `min` of a (nonempty) list; `0` on the empty list. -/
def listMin : List ℚ → ℚ
  | [] => 0
  | x :: xs => xs.foldl min x

/-- `l[i] = f l[i]` on a list; out-of-range indices are left unchanged. -/
def listModify {α : Type} (l : List α) (i : ℕ) (f : α → α) : List α :=
  match l.get? i with
  | some x => l.set i (f x)
  | none => l

/-- The external collaborators consumed by a `Stack` (spec §6): the cell-level
electrochemical primitives, the fitted polarization model, and the `rainflow`
library's cycle-weighted range sum. -/
structure CellModel where
  /-- `electrolyzer_model((P_kW, T), *fit_params)`: stack current from power. -/
  electrolyzerModel : ℚ → ℚ → ℚ
  /-- `cell.calc_cell_voltage(I, T)`. -/
  calcCellVoltage : ℚ → ℚ → ℚ
  /-- `cell.calc_mass_flow_rate(T, I)` (per cell). -/
  calcMassFlowRate : ℚ → ℚ → ℚ
  /-- `sum(range * count for (range, count) in rainflow.count_cycles(sig, nbins=10))`. -/
  rfValue : List ℚ → ℚ

/-- The four scalars of the discrete state space `calc_state_space` derives via
`tf2ss`/`cont2discrete` (external scipy); `x' = a·x + b·u ; y = c·x + d·u`. -/
structure DTSS where
  a : ℚ
  b : ℚ
  c : ℚ
  d : ℚ
  deriving DecidableEq

/-- Mutable and static state of `Stack` (`stack.py`). -/
structure Stack where
  dt : ℚ
  temperature : ℚ
  n_cells : ℚ
  include_degradation_penalty : Bool
  hydrogen_degradation_penalty : Bool
  rate_steady : ℚ
  rate_fatigue : ℚ
  rate_onoff : ℚ
  uptime : ℚ
  cell_voltage : ℚ
  d_s : ℚ
  rf_track : ℚ
  fatigue_history : ℚ
  hourly_counter : ℚ
  hour_change : Bool
  voltage_signal : List ℚ
  voltage_history : List ℚ
  d_f : ℚ
  cycle_count : ℕ
  d_o : ℚ
  V_degradation : ℚ
  I : ℚ
  stack_on : Bool
  stack_waiting : Bool
  turn_on_delay : ℚ
  turn_on_time : ℚ
  turn_off_time : ℚ
  wait_time : ℚ
  time : ℚ
  stack_state : ℚ
  dtss : DTSS
  ignore_dynamics : Bool
  d_eol : ℚ
  deriving DecidableEq

/-- `Stack.__attrs_post_init__`, restricted to the fields of the embedded state.
`d_eol` and the state-space scalars are computed there through the external cell
model and scipy (`calc_end_of_life_voltage`, `calc_state_space`) and are
therefore taken as parameters.  `base_turn_on_delay = 600`, `tau = 5`. -/
def initStack (dt temperature n_cells rate_steady rate_fatigue rate_onoff : ℚ)
    (include_deg hydrogen_deg : Bool) (d_eol : ℚ) (dtss : DTSS) : Stack :=
  let delay : ℚ := if dt > 2 * 600 then 0 else 600
  { dt := dt
    temperature := temperature
    n_cells := n_cells
    include_degradation_penalty := include_deg
    hydrogen_degradation_penalty := hydrogen_deg
    rate_steady := rate_steady
    rate_fatigue := rate_fatigue
    rate_onoff := rate_onoff
    uptime := 0
    cell_voltage := 0
    d_s := 0
    rf_track := 0
    fatigue_history := 0
    hourly_counter := 0
    hour_change := false
    voltage_signal := []
    voltage_history := []
    d_f := 0
    cycle_count := 0
    d_o := 0
    V_degradation := 0
    I := 0
    stack_on := false
    stack_waiting := false
    turn_on_delay := delay
    turn_on_time := 0
    turn_off_time := -delay
    wait_time := min (0 - (-delay)) delay
    time := 0
    stack_state := 0
    dtss := dtss
    ignore_dynamics := dt > 5
    d_eol := d_eol }

/-- `Stack.update_status`. -/
def updateStatus (s : Stack) : Stack :=
  if s.stack_on then s
  else if s.stack_waiting then
    if s.turn_on_time + s.wait_time ≤ s.time then
      { s with stack_waiting := false, stack_on := true }
    else s
  else s

/-- `Stack.turn_stack_off`. -/
def turnStackOff (s : Stack) : Stack :=
  if s.stack_on ∨ s.stack_waiting then
    { s with
      turn_off_time := s.time
      stack_on := false
      stack_waiting := false
      cycle_count := s.cycle_count + 1
      wait_time := max 0 (s.wait_time - (s.time - s.turn_on_time)) }
  else s

/-- `Stack.turn_stack_on`. -/
def turnStackOn (s : Stack) : Stack :=
  if s.stack_on then s
  else
    let s1 := if ¬ s.stack_waiting then { s with turn_on_time := s.time } else s
    { s1 with
      stack_waiting := true
      wait_time := min (s1.wait_time + (s1.turn_on_time - s1.turn_off_time)) s1.turn_on_delay }

/-- `Stack.calc_stack_power(Idc, V)`; Python's `V = V or (...)` falls back to the
cell model both when `V` is absent and when it equals `0.0` (falsy). -/
def calcStackPower (cm : CellModel) (s : Stack) (Idc : ℚ) (V : Option ℚ) : ℚ :=
  let v := match V with
    | none => cm.calcCellVoltage Idc s.temperature
    | some v0 => if v0 = 0 then cm.calcCellVoltage Idc s.temperature else v0
  Idc * v * s.n_cells / 1000

/-- `Stack.run_power_deg_penalty`. -/
def runPowerDegPenalty (cm : CellModel) (s : Stack) (P_in : ℚ) : ℚ × ℚ :=
  let I_stack := cm.electrolyzerModel (P_in / 1000) s.temperature
  (I_stack, cm.calcCellVoltage I_stack s.temperature)

/-- `Stack.run_h2_deg_penalty`.  `np.nan_to_num` of the 0/0 cases is modelled by
the explicit zero branches. -/
def runH2DegPenalty (cm : CellModel) (s : Stack) (P_in : ℚ) : ℚ × ℚ :=
  let I_nom := cm.electrolyzerModel (P_in / 1000) s.temperature
  let V_cell := cm.calcCellVoltage I_nom s.temperature
  let eff_mult := if V_cell = 0 then 0 else (V_cell + s.V_degradation) / V_cell
  let I_stack := if eff_mult = 0 then 0 else I_nom / eff_mult
  (I_stack, V_cell)

/-- `Stack.update_dynamics`. -/
def updateDynamics (s : Stack) (H2_mfr_ss stack_state : ℚ) : ℚ × ℚ :=
  if s.ignore_dynamics then (s.stack_state, H2_mfr_ss)
  else
    (s.dtss.a * stack_state + s.dtss.b * H2_mfr_ss,
     s.dtss.c * stack_state + s.dtss.d * H2_mfr_ss)

/-- `Stack.update_degradation`, with `calc_fatigue_degradation`,
`calc_steady_degradation` and `calc_onoff_degradation` inlined.  The source's
nested `if hour_change` / `if len(nz) > 0` / `if perc > 0.05` collapse to one
conjunction.  `calc_fatigue_degradation` re-filters the signal to its nonzero
entries before the rainflow pass, so `rfValue` receives `nz`. -/
def updateDegradation (cm : CellModel) (s : Stack) : Stack :=
  let nz := s.voltage_signal.filter (fun v => v ≠ 0)
  let s1 :=
    if s.hour_change ∧ nz ≠ [] ∧ (listMax nz - listMin nz) / listMax nz > 1 / 20 then
      let rf_sum := cm.rfValue nz
      { s with
        rf_track := s.rf_track + rf_sum
        fatigue_history := s.rate_fatigue * (s.rf_track + rf_sum) }
    else s
  let ds := s1.d_s + s1.rate_steady * s1.cell_voltage * s1.dt
  let dO := s1.rate_onoff * (s1.cycle_count : ℚ)
  { s1 with
    d_f := s1.fatigue_history
    d_s := ds
    d_o := dO
    V_degradation := ds + dO + s1.fatigue_history }

/-- Return bundle of `Stack.run_stack` / `Stack.run`. -/
structure RunResult where
  stack : Stack
  H2_mfr : ℚ
  H2_mass_out : ℚ
  power_left : ℚ
  deriving DecidableEq

/-- The mode-dependent part of `Stack.run_stack` (lines before the common
voltage/history/hour bookkeeping).  Returns
`(stack, H2_mfr, H2_mass_out, power_left, V_cell)` where `V_cell` is the final
value of the local variable `V_cell` of the source.  `update_temperature` is a
placeholder returning the temperature unchanged. -/
def runStackCore (cm : CellModel) (s : Stack) (I_stack V_cell P_in : ℚ) :
    Stack × ℚ × ℚ × ℚ × ℚ :=
  if s.stack_on then
    let s := { s with I := I_stack }
    let V_cell := if s.include_degradation_penalty then V_cell + s.V_degradation else V_cell
    let s := updateDegradation cm s
    let power_left := P_in - calcStackPower cm s I_stack (some V_cell) * 1000
    let H2_mfr_ss := cm.calcMassFlowRate s.temperature I_stack * s.n_cells
    let sd := updateDynamics s H2_mfr_ss s.stack_state
    let s := { s with stack_state := sd.1 }
    let H2_mfr := sd.2
    let s := { s with uptime := s.uptime + s.dt }
    (s, H2_mfr, H2_mfr * s.dt, power_left, V_cell)
  else
    let sd := updateDynamics s 0 s.stack_state
    let s := { s with stack_state := sd.1 }
    let H2_mfr := sd.2
    if s.stack_waiting then
      let s := { s with uptime := s.uptime + s.dt, I := I_stack }
      let s := updateDegradation cm s
      (s, H2_mfr, 0, 0, V_cell)
    else
      (s, H2_mfr, 0, P_in, (0 : ℚ))

/-- The common tail of `Stack.run_stack`: record the cell voltage, append to the
voltage history, advance `time`, recompute `hourly_counter = time // 3600` and
set `hour_change` / snapshot `voltage_signal` on an hour boundary. -/
def runStackFinish (s : Stack) (V_fin : ℚ) : Stack :=
  let s := { s with
    cell_voltage := V_fin
    voltage_history := s.voltage_history ++ [V_fin] }
  let hourly_temp := s.hourly_counter
  let s := { s with time := s.time + s.dt }
  let hc : ℚ := ((⌊s.time / 3600⌋ : ℤ) : ℚ)
  let s := { s with hourly_counter := hc }
  if hourly_temp ≠ hc then
    { s with
      hour_change := true
      voltage_signal := s.voltage_history
      voltage_history := [] }
  else { s with hour_change := false }

/-- `Stack.run_stack(I_stack, V_cell, P_in)`. -/
def runStack (cm : CellModel) (s : Stack) (I_stack V_cell P_in : ℚ) : RunResult :=
  let core := runStackCore cm s I_stack V_cell P_in
  { stack := runStackFinish core.1 core.2.2.2.2
    H2_mfr := core.2.1
    H2_mass_out := core.2.2.1
    power_left := core.2.2.2.1 }

/-- The current/voltage pair `Stack.run` obtains from the configured penalty
path. -/
def runIV (cm : CellModel) (s : Stack) (P_in : ℚ) : ℚ × ℚ :=
  if s.hydrogen_degradation_penalty then runH2DegPenalty cm s P_in
  else runPowerDegPenalty cm s P_in

/-- `Stack.run(P_in)`. -/
def Stack.run (cm : CellModel) (s : Stack) (P_in : ℚ) : RunResult :=
  let s := updateStatus s
  let iv := runIV cm s P_in
  runStack cm s iv.1 iv.2 P_in

/-- `Stack.estimate_time_until_replacement`.  In Python both the
`V_degradation / d_eol` step (when `d_eol == 0`) and the `1 / frac_of_life_used`
step (when the fraction is `0.0`) raise `ZeroDivisionError`; `none` models the
raised exception. -/
def estimateTimeUntilReplacement (s : Stack) : Option ℚ :=
  if s.d_eol = 0 then none
  else
    let frac := s.V_degradation / s.d_eol
    if frac = 0 then none
    else some ((1 / frac) * (s.time / 3600))

/-- `Stack.estimate_stack_life`; same `ZeroDivisionError` modelling. -/
def estimateStackLife (s : Stack) : Option ℚ :=
  if s.d_eol = 0 then none
  else
    let frac := s.V_degradation / s.d_eol
    if frac = 0 then none
    else some ((1 / frac) * (s.uptime / 3600))

/-- The operations a driver can apply to one stack. -/
inductive StackOp where
  | runOp (P_in : ℚ)
  | turnOnOp
  | turnOffOp
  deriving DecidableEq

/-- Apply one operation to a stack. -/
def applyOp (cm : CellModel) (s : Stack) : StackOp → Stack
  | .runOp P => (Stack.run cm s P).stack
  | .turnOnOp => turnStackOn s
  | .turnOffOp => turnStackOff s

/-- Apply a sequence of operations to a stack. -/
def applyOps (cm : CellModel) (s : Stack) (ops : List StackOp) : Stack :=
  ops.foldl (applyOp cm) s

/-- Dispatch tags of `ElectrolyzerSupervisor.control_type` for the two policies
the claims exercise; `isDeg` mirrors Python's `"deg" in self.control_type`. -/
inductive ControlType where
  | psRotation
  | evenSplitEager
  deriving DecidableEq

/-- `"deg" in self.control_type`. -/
def ControlType.isDeg : ControlType → Bool
  | .psRotation => false
  | .evenSplitEager => true

/-- State of `ElectrolyzerSupervisor`.  The diagnostic `*_store` lists are
write-only troubleshooting buffers ("delete all these eventually") and are
omitted. -/
structure Supervisor where
  n_stacks : ℕ
  stack_rating_kW : ℚ
  stack_rating : ℚ
  stack_min_power : ℚ
  control_type : ControlType
  active : List ℚ
  waiting : List ℚ
  stack_rotation : List ℕ
  deg_state : List ℚ
  -- `self.stacksList` (renamed: `stacks` is a reserved token of the Lean environment)
  stacksList : List Stack
  stacks_on : ℕ
  stacks_waiting : ℕ
  stacks_waiting_vec : List ℚ
  deriving DecidableEq

/-- The comparison `np.argsort` resolves positions by: smaller value first,
equal values by position (the stable idealization of numpy's sort). -/
def argsortRel (l : List ℚ) (i j : ℕ) : Prop :=
  l.getD i 0 < l.getD j 0 ∨ (l.getD i 0 = l.getD j 0 ∧ i ≤ j)

instance (l : List ℚ) : DecidableRel (argsortRel l) := fun i j => by
  unfold argsortRel; infer_instance

/-- `np.argsort l`: the positions `0, …, l.length - 1` sorted by value,
ties by position. -/
def argsort (l : List ℚ) : List ℕ :=
  List.insertionSort (argsortRel l) (List.range l.length)

/-- The inactive candidate indices of `get_healthiest_inactive`
(`np.nonzero(active - 1)[0]`). -/
def inactIdx (active : List ℚ) : List ℕ :=
  (List.range active.length).filter (fun i => active.getD i 0 ≠ 1)

/-- The active candidate indices of `get_illest_active`
(`np.nonzero(active)[0]`). -/
def actIdx (active : List ℚ) : List ℕ :=
  (List.range active.length).filter (fun i => active.getD i 0 ≠ 0)

/-- The positions selected by `get_healthiest_inactive`: inactive indices,
their degradations sorted ascending, first `n_activate` taken. -/
def healthiestSel (active deg_state : List ℚ) (n_activate : ℕ) : List ℕ :=
  let inact := inactIdx active
  let ds := inact.map (fun i => deg_state.getD i 0)
  let deg_inds := argsort ds
  (deg_inds.take n_activate).map (fun p => inact.getD p 0)

/-- `ElectrolyzerSupervisor.get_healthiest_inactive`: a 0/1 vector with 1 at the
selected indices (`temp = zeros; temp[inact[deg_inds[0:k]]] = 1`). -/
def getHealthiestInactive (active deg_state : List ℚ) (n_activate : ℕ) : List ℚ :=
  (List.range active.length).map
    (fun j => if j ∈ healthiestSel active deg_state n_activate then 1 else 0)

/-- The positions selected by `get_illest_active`: active indices
(`np.nonzero(active)[0]`), their degradations argsorted then flipped
(descending), first `n_deactivate` taken. -/
def illestSel (active deg_state : List ℚ) (n_deactivate : ℕ) : List ℕ :=
  let act := actIdx active
  let ds := act.map (fun i => deg_state.getD i 0)
  let deg_inds := (argsort ds).reverse
  (deg_inds.take n_deactivate).map (fun p => act.getD p 0)

/-- `ElectrolyzerSupervisor.get_illest_active`: a 0/1 vector with 0 at the
selected indices (`temp = ones; temp[act[deg_inds[0:k]]] = 0`). -/
def getIllestActive (active deg_state : List ℚ) (n_deactivate : ℕ) : List ℚ :=
  (List.range active.length).map
    (fun j => if j ∈ illestSel active deg_state n_deactivate then 0 else 1)

/-- `ElectrolyzerSupervisor.turn_off_stack`. -/
def turnOffStackSup (sup : Supervisor) (off_stack : ℕ) : Supervisor :=
  { sup with
    active := sup.active.set off_stack 0
    waiting := sup.waiting.set off_stack 0
    stacksList := listModify sup.stacksList off_stack turnStackOff }

/-- `ElectrolyzerSupervisor.turn_on_stack`. -/
def turnOnStackSup (sup : Supervisor) (on_stack : ℕ) : Supervisor :=
  { sup with
    stacksList := listModify sup.stacksList on_stack turnStackOn
    waiting := sup.waiting.set on_stack 1 }

/-- The `while self.active[self.stack_rotation[ij]] > 0: ij += 1` scan of
`power_sharing_rotation`; `none` models the `IndexError` Python raises when
`ij` runs past the rotation list. -/
def findNonActive (active : List ℚ) (rotation : List ℕ) : ℕ → ℕ → Option ℕ
  | _, 0 => none
  | ij, fuel + 1 =>
    match rotation.get? ij with
    | none => none
    | some r => if active.getD r 0 > 0 then findNonActive active rotation (ij + 1) fuel else some r

/-- The add/shed phase of `power_sharing_rotation` (everything before the final
`new_stack_power` division). -/
def psrPhase (sup : Supervisor) (power_in : ℚ) : Option Supervisor :=
  let sAW := (listAdd sup.active sup.waiting).sum
  let P_indv := if sAW = 0 then power_in / (sup.n_stacks : ℚ) else power_in / sAW
  let P_indv_kW := P_indv / 1000
  let stacks_supported : ℤ := min ⌊power_in / (sup.stack_rating / 2)⌋ (sup.n_stacks : ℤ)
  let diff : ℤ := stacks_supported - ⌊sAW⌋
  if 0 < diff then
    if 1 < diff ∨ P_indv_kW > 8 / 10 * sup.stack_rating_kW then
      if sup.waiting.sum = 0 ∧ sup.active.sum ≠ (sup.n_stacks : ℚ) then
        (List.range diff.toNat).foldlM
          (fun acc i =>
            match findNonActive acc.active acc.stack_rotation i (acc.stack_rotation.length + 1) with
            | none => none
            | some r => some (turnOnStackSup acc r))
          sup
      else some sup
    else some sup
  else if diff < 0 then
    if P_indv_kW < 2 / 10 * sup.stack_rating_kW then
      if sup.active.sum > 0 then
        match sup.stack_rotation with
        | [] => none
        | r0 :: rest =>
          some { turnOffStackSup sup r0 with stack_rotation := rest ++ [r0] }
      else some sup
    else some sup
  else some sup

/-- `ElectrolyzerSupervisor.power_sharing_rotation`.  The final
`power_in / sum(active + waiting)` has no zero-divisor guard (unlike the guarded
division at the top, inside `psrPhase`); the degenerate division is modelled as
`none` (numpy emits `inf`, which ℚ cannot represent).  Returns the per-stack
power vector and the policy's curtailed wind. -/
def powerSharingRotation (sup : Supervisor) (power_in : ℚ) :
    Option (Supervisor × List ℚ × ℚ) :=
  match psrPhase sup power_in with
  | none => none
  | some sup1 =>
    let sAW := (listAdd sup1.active sup1.waiting).sum
    if sAW = 0 then none
    else
      let nsp := power_in / sAW
      if nsp / 1000 > sup1.stack_rating_kW then
        some (sup1,
          List.replicate sup1.n_stacks (sup1.stack_rating_kW * 1000),
          (nsp - sup1.stack_rating_kW * 1000) * (sup1.stacks_on : ℚ))
      else
        some (sup1, List.replicate sup1.n_stacks nsp, 0)

/-- `ElectrolyzerSupervisor.distribute_power_equal_eager`.  Returns the updated
supervisor (it mutates `self.active`) and the per-stack power vector. -/
def distributePowerEqualEager (sup : Supervisor) (power_in : ℚ) :
    Supervisor × List ℚ :=
  let n_active : ℤ := min (sup.n_stacks : ℤ) ⌊power_in / sup.stack_min_power⌋
  let P_i : ℚ :=
    if 0 < n_active then min (power_in / (n_active : ℚ)) sup.stack_rating else 0
  let sumA := sup.active.sum
  let sup :=
    if (n_active : ℚ) = sumA then sup
    else if sumA < (n_active : ℚ) then
      let diff := (n_active - ⌊sumA⌋).toNat
      { sup with active := listAdd sup.active (getHealthiestInactive sup.active sup.deg_state diff) }
    else
      let diff := (⌊sumA⌋ - n_active).toNat
      { sup with active := List.zipWith (· * ·) sup.active (getIllestActive sup.active sup.deg_state diff) }
  (sup, sup.active.map (fun a => P_i * a))

/-- Return bundle of `ElectrolyzerSupervisor.control`, extended with the
per-stack power vector and the final `on_or_waiting` vector that the
curtailment formula uses. -/
structure ControlResult where
  sup : Supervisor
  stack_power : List ℚ
  on_or_waiting : List ℚ
  H2_mass_out : ℚ
  H2_mass_flow_rate : List ℚ
  power_left : ℚ
  curtailed_wind : ℚ
  deriving DecidableEq

/-- Loop state of the per-stack simulation loop inside `control`. -/
structure ControlLoopState where
  -- `self.stacksList` (renamed: `stacks` is a reserved token of the Lean environment)
  stacksList : List Stack
  deg_state : List ℚ
  active : List ℚ
  waiting : List ℚ
  stacks_waiting_vec : List ℚ
  on_or_waiting : List ℚ
  stacks_on : ℕ
  H2_mass_flow_rate : List ℚ
  H2_mass_out : ℚ
  power_left : ℚ

/-- Everything `ElectrolyzerSupervisor.control` does after the policy dispatch:
the `"deg"` reconciliation block, the per-stack `run` loop, and the curtailment
formula `max(0, power_in - np.dot(on_or_waiting, stack_power))` (which
overwrites any curtailment the policy returned). -/
def controlPost (cm : CellModel) (sup0 : Supervisor) (stack_power : List ℚ)
    (power_in : ℚ) : ControlResult :=
  let n := sup0.n_stacks
  let oow0 : List ℚ := List.replicate n 0
  -- `if "deg" in self.control_type:` reconciliation of belief vs. stack mode
  let recon : Supervisor × List ℚ :=
    if sup0.control_type.isDeg then
      let oow := (List.range n).map
        (fun i =>
          let st := sup0.stacksList.getD i (initStack 0 0 0 0 0 0 false false 0 ⟨0, 0, 0, 0⟩)
          if st.stack_on ∨ st.stack_waiting then (1 : ℚ) else 0)
      let mismatch := listSub sup0.active oow
      let sup1 := (List.range mismatch.length).foldl
        (fun acc i =>
          let m := mismatch.getD i 0
          if m = 1 then { acc with stacksList := listModify acc.stacksList i turnStackOn }
          else if m = 0 then acc
          else if m = -1 then { acc with stacksList := listModify acc.stacksList i turnStackOff }
          else acc)
        sup0
      let sup2 := { sup1 with
        waiting := (List.range n).foldl
          (fun w i =>
            let st := sup1.stacksList.getD i (initStack 0 0 0 0 0 0 false false 0 ⟨0, 0, 0, 0⟩)
            if st.stack_waiting then w.set i 1 else w.set i 0)
          sup1.waiting }
      (sup2, oow)
    else (sup0, oow0)
  let sup := recon.1
  -- per-stack simulation loop
  let L0 : ControlLoopState :=
    { stacksList := sup.stacksList
      deg_state := sup.deg_state
      active := sup.active
      waiting := sup.waiting
      stacks_waiting_vec := sup.stacks_waiting_vec
      on_or_waiting := recon.2
      stacks_on := 0
      H2_mass_flow_rate := List.replicate n 0
      H2_mass_out := 0
      power_left := 0 }
  let L := (List.range n).foldl
    (fun L i =>
      let st := L.stacksList.getD i (initStack 0 0 0 0 0 0 false false 0 ⟨0, 0, 0, 0⟩)
      let r := st.run cm (stack_power.getD i 0)
      let st1 := r.stack
      let L := { L with
        stacksList := L.stacksList.set i st1
        deg_state := L.deg_state.set i st1.V_degradation }
      let L :=
        if st1.stack_on then
          { L with
            stacks_on := L.stacks_on + 1
            active := L.active.set i 1
            on_or_waiting := L.on_or_waiting.set i 1 }
        else L
      let L :=
        if st1.stack_waiting then
          { L with
            waiting := L.waiting.set i 1
            stacks_waiting_vec := L.stacks_waiting_vec.set i 1
            on_or_waiting := L.on_or_waiting.set i 1 }
        else
          { L with
            waiting := L.waiting.set i 0
            stacks_waiting_vec := L.stacks_waiting_vec.set i 0 }
      { L with
        H2_mass_flow_rate := L.H2_mass_flow_rate.set i r.H2_mfr
        H2_mass_out := L.H2_mass_out + r.H2_mass_out
        power_left := L.power_left + r.power_left })
    L0
  { sup := { sup with
      stacksList := L.stacksList
      deg_state := L.deg_state
      active := L.active
      waiting := L.waiting
      stacks_waiting_vec := L.stacks_waiting_vec
      stacks_on := L.stacks_on
      stacks_waiting := 0 }
    stack_power := stack_power
    on_or_waiting := L.on_or_waiting
    H2_mass_out := L.H2_mass_out
    H2_mass_flow_rate := L.H2_mass_flow_rate
    power_left := L.power_left
    curtailed_wind := max 0 (power_in - dotQ L.on_or_waiting stack_power) }

/-- `ElectrolyzerSupervisor.control` for the embedded policies.  The curtailed
wind a policy returns is discarded: the source unconditionally reassigns
`curtailed_wind` after the stack loop. -/
def Supervisor.control (cm : CellModel) (sup : Supervisor) (power_in : ℚ) :
    Option ControlResult :=
  match sup.control_type with
  | .psRotation =>
    (powerSharingRotation sup power_in).map
      (fun x => controlPost cm x.1 x.2.1 power_in)
  | .evenSplitEager =>
    let x := distributePowerEqualEager sup power_in
    some (controlPost cm x.1 x.2 power_in)

/-! ### Structural lemmas about the stack operations -/

lemma updateStatus_cases (s : Stack) :
    updateStatus s = s ∨
      updateStatus s = { s with stack_waiting := false, stack_on := true } := by
  unfold updateStatus
  split_ifs <;> simp

lemma turnStackOn_cases (s : Stack) :
    turnStackOn s = s ∨
      (s.stack_on = false ∧ ∃ t, turnStackOn s =
        { s with
          turn_on_time := t
          stack_waiting := true
          wait_time := min (s.wait_time + (t - s.turn_off_time)) s.turn_on_delay }) := by
  by_cases h1 : s.stack_on
  · left
    simp [turnStackOn, h1]
  · by_cases h2 : s.stack_waiting
    · refine Or.inr ⟨by simpa using h1, s.turn_on_time, ?_⟩
      simp [turnStackOn, h1, h2]
    · refine Or.inr ⟨by simpa using h1, s.time, ?_⟩
      simp [turnStackOn, h1, h2]

lemma turnStackOff_cases (s : Stack) :
    (turnStackOff s = s ∧ s.stack_on = false ∧ s.stack_waiting = false) ∨
      turnStackOff s =
        { s with
          turn_off_time := s.time
          stack_on := false
          stack_waiting := false
          cycle_count := s.cycle_count + 1
          wait_time := max 0 (s.wait_time - (s.time - s.turn_on_time)) } := by
  by_cases h : s.stack_on = true ∨ s.stack_waiting = true
  · right
    simp only [turnStackOff, h, if_true]
  · push_neg at h
    left
    refine ⟨?_, by simpa using h.1, by simpa using h.2⟩
    simp only [turnStackOff]
    rw [if_neg]
    simpa using h

lemma updateDegradation_const (cm : CellModel) (s : Stack) :
    (updateDegradation cm s).dt = s.dt ∧
    (updateDegradation cm s).temperature = s.temperature ∧
    (updateDegradation cm s).n_cells = s.n_cells ∧
    (updateDegradation cm s).rate_steady = s.rate_steady ∧
    (updateDegradation cm s).rate_fatigue = s.rate_fatigue ∧
    (updateDegradation cm s).rate_onoff = s.rate_onoff ∧
    (updateDegradation cm s).uptime = s.uptime ∧
    (updateDegradation cm s).cell_voltage = s.cell_voltage ∧
    (updateDegradation cm s).cycle_count = s.cycle_count ∧
    (updateDegradation cm s).stack_on = s.stack_on ∧
    (updateDegradation cm s).stack_waiting = s.stack_waiting ∧
    (updateDegradation cm s).time = s.time ∧
    (updateDegradation cm s).wait_time = s.wait_time ∧
    (updateDegradation cm s).turn_on_time = s.turn_on_time ∧
    (updateDegradation cm s).turn_off_time = s.turn_off_time ∧
    (updateDegradation cm s).turn_on_delay = s.turn_on_delay ∧
    (updateDegradation cm s).hour_change = s.hour_change ∧
    (updateDegradation cm s).voltage_signal = s.voltage_signal ∧
    (updateDegradation cm s).voltage_history = s.voltage_history := by
  simp only [updateDegradation]
  split_ifs <;> simp

lemma updateDegradation_d_s (cm : CellModel) (s : Stack) :
    (updateDegradation cm s).d_s = s.d_s + s.rate_steady * s.cell_voltage * s.dt := by
  simp only [updateDegradation]
  split_ifs <;> simp

lemma updateDegradation_d_o (cm : CellModel) (s : Stack) :
    (updateDegradation cm s).d_o = s.rate_onoff * (s.cycle_count : ℚ) := by
  simp only [updateDegradation]
  split_ifs <;> simp

lemma updateDegradation_V (cm : CellModel) (s : Stack) :
    (updateDegradation cm s).V_degradation =
      (updateDegradation cm s).d_s + (updateDegradation cm s).d_o +
        (updateDegradation cm s).fatigue_history := by
  simp only [updateDegradation]

lemma updateDegradation_fatigue_cases (cm : CellModel) (s : Stack) :
    ((updateDegradation cm s).fatigue_history = s.fatigue_history ∧
      (updateDegradation cm s).rf_track = s.rf_track) ∨
    ((updateDegradation cm s).rf_track =
        s.rf_track + cm.rfValue (s.voltage_signal.filter (fun v => v ≠ 0)) ∧
      (updateDegradation cm s).fatigue_history =
        s.rate_fatigue * (updateDegradation cm s).rf_track) := by
  simp only [updateDegradation]
  split_ifs <;> simp

lemma updateDegradation_fh_of_not (cm : CellModel) (s : Stack)
    (h : ¬(s.hour_change = true ∧ (s.voltage_signal.filter (fun v => v ≠ 0)) ≠ [] ∧
        (listMax (s.voltage_signal.filter (fun v => v ≠ 0)) -
            listMin (s.voltage_signal.filter (fun v => v ≠ 0))) /
          listMax (s.voltage_signal.filter (fun v => v ≠ 0)) > 1 / 20)) :
    (updateDegradation cm s).fatigue_history = s.fatigue_history := by
  simp only [updateDegradation]
  rw [if_neg h]

lemma runStackCore_cases (cm : CellModel) (s : Stack) (i v P : ℚ) :
    (s.stack_on = true ∧ ∃ a u,
      (runStackCore cm s i v P).1 =
          { updateDegradation cm { s with I := i } with stack_state := a, uptime := u } ∧
      u = s.uptime + s.dt ∧
      (runStackCore cm s i v P).2.2.2.2 =
        (if s.include_degradation_penalty then v + s.V_degradation else v)) ∨
    (s.stack_on = false ∧ s.stack_waiting = true ∧ ∃ a,
      (runStackCore cm s i v P).1 =
          updateDegradation cm { s with stack_state := a, uptime := s.uptime + s.dt, I := i } ∧
      (runStackCore cm s i v P).2.2.2.1 = 0 ∧
      (runStackCore cm s i v P).2.2.2.2 = v) ∨
    (s.stack_on = false ∧ s.stack_waiting = false ∧ ∃ a,
      (runStackCore cm s i v P).1 = { s with stack_state := a } ∧
      (runStackCore cm s i v P).2.2.2.1 = P ∧
      (runStackCore cm s i v P).2.2.2.2 = 0) := by
  by_cases h1 : s.stack_on
  · left
    have hc := updateDegradation_const cm { s with I := i }
    refine ⟨h1,
      (updateDynamics (updateDegradation cm { s with I := i })
        (cm.calcMassFlowRate (updateDegradation cm { s with I := i }).temperature i *
          (updateDegradation cm { s with I := i }).n_cells)
        (updateDegradation cm { s with I := i }).stack_state).1,
      (updateDegradation cm { s with I := i }).uptime +
        (updateDegradation cm { s with I := i }).dt, ?_, ?_, ?_⟩
    · simp only [runStackCore, h1, if_true]
    · rw [hc.2.2.2.2.2.2.1, hc.1]
    · simp only [runStackCore, h1, if_true]
  · by_cases h2 : s.stack_waiting
    · right; left
      refine ⟨by simpa using h1, h2, (updateDynamics s 0 s.stack_state).1, ?_, ?_, ?_⟩ <;>
        simp [runStackCore, h1, h2]
    · right; right
      refine ⟨by simpa using h1, by simpa using h2, (updateDynamics s 0 s.stack_state).1,
        ?_, ?_, ?_⟩ <;> simp [runStackCore, h1, h2]

lemma runStackFinish_const (s : Stack) (v : ℚ) :
    (runStackFinish s v).d_s = s.d_s ∧
    (runStackFinish s v).d_o = s.d_o ∧
    (runStackFinish s v).d_f = s.d_f ∧
    (runStackFinish s v).fatigue_history = s.fatigue_history ∧
    (runStackFinish s v).rf_track = s.rf_track ∧
    (runStackFinish s v).V_degradation = s.V_degradation ∧
    (runStackFinish s v).uptime = s.uptime ∧
    (runStackFinish s v).dt = s.dt ∧
    (runStackFinish s v).rate_steady = s.rate_steady ∧
    (runStackFinish s v).rate_fatigue = s.rate_fatigue ∧
    (runStackFinish s v).rate_onoff = s.rate_onoff ∧
    (runStackFinish s v).cycle_count = s.cycle_count ∧
    (runStackFinish s v).stack_on = s.stack_on ∧
    (runStackFinish s v).stack_waiting = s.stack_waiting ∧
    (runStackFinish s v).wait_time = s.wait_time ∧
    (runStackFinish s v).turn_on_time = s.turn_on_time ∧
    (runStackFinish s v).turn_off_time = s.turn_off_time ∧
    (runStackFinish s v).turn_on_delay = s.turn_on_delay ∧
    (runStackFinish s v).time = s.time + s.dt ∧
    (runStackFinish s v).cell_voltage = v := by
  simp only [runStackFinish]
  split_ifs <;> simp

/-! ### Field-projection corollaries -/

lemma updSt_uptime (s : Stack) : (updateStatus s).uptime = s.uptime := by
  rcases updateStatus_cases s with h | h <;> rw [h]

lemma updSt_cell_voltage (s : Stack) : (updateStatus s).cell_voltage = s.cell_voltage := by
  rcases updateStatus_cases s with h | h <;> rw [h]

lemma updSt_d_s (s : Stack) : (updateStatus s).d_s = s.d_s := by
  rcases updateStatus_cases s with h | h <;> rw [h]

lemma updSt_rf_track (s : Stack) : (updateStatus s).rf_track = s.rf_track := by
  rcases updateStatus_cases s with h | h <;> rw [h]

lemma updSt_fatigue_history (s : Stack) : (updateStatus s).fatigue_history = s.fatigue_history := by
  rcases updateStatus_cases s with h | h <;> rw [h]

lemma updSt_d_f (s : Stack) : (updateStatus s).d_f = s.d_f := by
  rcases updateStatus_cases s with h | h <;> rw [h]

lemma updSt_d_o (s : Stack) : (updateStatus s).d_o = s.d_o := by
  rcases updateStatus_cases s with h | h <;> rw [h]

lemma updSt_V_degradation (s : Stack) : (updateStatus s).V_degradation = s.V_degradation := by
  rcases updateStatus_cases s with h | h <;> rw [h]

lemma updSt_dt (s : Stack) : (updateStatus s).dt = s.dt := by
  rcases updateStatus_cases s with h | h <;> rw [h]

lemma updSt_temperature (s : Stack) : (updateStatus s).temperature = s.temperature := by
  rcases updateStatus_cases s with h | h <;> rw [h]

lemma updSt_n_cells (s : Stack) : (updateStatus s).n_cells = s.n_cells := by
  rcases updateStatus_cases s with h | h <;> rw [h]

lemma updSt_rate_steady (s : Stack) : (updateStatus s).rate_steady = s.rate_steady := by
  rcases updateStatus_cases s with h | h <;> rw [h]

lemma updSt_rate_fatigue (s : Stack) : (updateStatus s).rate_fatigue = s.rate_fatigue := by
  rcases updateStatus_cases s with h | h <;> rw [h]

lemma updSt_rate_onoff (s : Stack) : (updateStatus s).rate_onoff = s.rate_onoff := by
  rcases updateStatus_cases s with h | h <;> rw [h]

lemma updSt_cycle_count (s : Stack) : (updateStatus s).cycle_count = s.cycle_count := by
  rcases updateStatus_cases s with h | h <;> rw [h]

lemma updSt_time (s : Stack) : (updateStatus s).time = s.time := by
  rcases updateStatus_cases s with h | h <;> rw [h]

lemma updSt_wait_time (s : Stack) : (updateStatus s).wait_time = s.wait_time := by
  rcases updateStatus_cases s with h | h <;> rw [h]

lemma updSt_turn_on_time (s : Stack) : (updateStatus s).turn_on_time = s.turn_on_time := by
  rcases updateStatus_cases s with h | h <;> rw [h]

lemma updSt_turn_off_time (s : Stack) : (updateStatus s).turn_off_time = s.turn_off_time := by
  rcases updateStatus_cases s with h | h <;> rw [h]

lemma updSt_turn_on_delay (s : Stack) : (updateStatus s).turn_on_delay = s.turn_on_delay := by
  rcases updateStatus_cases s with h | h <;> rw [h]

lemma updSt_hour_change (s : Stack) : (updateStatus s).hour_change = s.hour_change := by
  rcases updateStatus_cases s with h | h <;> rw [h]

lemma updSt_voltage_signal (s : Stack) : (updateStatus s).voltage_signal = s.voltage_signal := by
  rcases updateStatus_cases s with h | h <;> rw [h]

lemma updSt_voltage_history (s : Stack) : (updateStatus s).voltage_history = s.voltage_history := by
  rcases updateStatus_cases s with h | h <;> rw [h]

lemma updSt_hydrogen_degradation_penalty (s : Stack) : (updateStatus s).hydrogen_degradation_penalty = s.hydrogen_degradation_penalty := by
  rcases updateStatus_cases s with h | h <;> rw [h]

lemma updSt_include_degradation_penalty (s : Stack) : (updateStatus s).include_degradation_penalty = s.include_degradation_penalty := by
  rcases updateStatus_cases s with h | h <;> rw [h]

lemma updDeg_dt (cm : CellModel) (s : Stack) : (updateDegradation cm s).dt = s.dt :=
  (updateDegradation_const cm s).1

lemma updDeg_temperature (cm : CellModel) (s : Stack) : (updateDegradation cm s).temperature = s.temperature :=
  (updateDegradation_const cm s).2.1

lemma updDeg_n_cells (cm : CellModel) (s : Stack) : (updateDegradation cm s).n_cells = s.n_cells :=
  (updateDegradation_const cm s).2.2.1

lemma updDeg_rate_steady (cm : CellModel) (s : Stack) : (updateDegradation cm s).rate_steady = s.rate_steady :=
  (updateDegradation_const cm s).2.2.2.1

lemma updDeg_rate_fatigue (cm : CellModel) (s : Stack) : (updateDegradation cm s).rate_fatigue = s.rate_fatigue :=
  (updateDegradation_const cm s).2.2.2.2.1

lemma updDeg_rate_onoff (cm : CellModel) (s : Stack) : (updateDegradation cm s).rate_onoff = s.rate_onoff :=
  (updateDegradation_const cm s).2.2.2.2.2.1

lemma updDeg_uptime (cm : CellModel) (s : Stack) : (updateDegradation cm s).uptime = s.uptime :=
  (updateDegradation_const cm s).2.2.2.2.2.2.1

lemma updDeg_cell_voltage (cm : CellModel) (s : Stack) : (updateDegradation cm s).cell_voltage = s.cell_voltage :=
  (updateDegradation_const cm s).2.2.2.2.2.2.2.1

lemma updDeg_cycle_count (cm : CellModel) (s : Stack) : (updateDegradation cm s).cycle_count = s.cycle_count :=
  (updateDegradation_const cm s).2.2.2.2.2.2.2.2.1

lemma updDeg_stack_on (cm : CellModel) (s : Stack) : (updateDegradation cm s).stack_on = s.stack_on :=
  (updateDegradation_const cm s).2.2.2.2.2.2.2.2.2.1

lemma updDeg_stack_waiting (cm : CellModel) (s : Stack) : (updateDegradation cm s).stack_waiting = s.stack_waiting :=
  (updateDegradation_const cm s).2.2.2.2.2.2.2.2.2.2.1

lemma updDeg_time (cm : CellModel) (s : Stack) : (updateDegradation cm s).time = s.time :=
  (updateDegradation_const cm s).2.2.2.2.2.2.2.2.2.2.2.1

lemma updDeg_wait_time (cm : CellModel) (s : Stack) : (updateDegradation cm s).wait_time = s.wait_time :=
  (updateDegradation_const cm s).2.2.2.2.2.2.2.2.2.2.2.2.1

lemma updDeg_turn_on_time (cm : CellModel) (s : Stack) : (updateDegradation cm s).turn_on_time = s.turn_on_time :=
  (updateDegradation_const cm s).2.2.2.2.2.2.2.2.2.2.2.2.2.1

lemma updDeg_turn_off_time (cm : CellModel) (s : Stack) : (updateDegradation cm s).turn_off_time = s.turn_off_time :=
  (updateDegradation_const cm s).2.2.2.2.2.2.2.2.2.2.2.2.2.2.1

lemma updDeg_turn_on_delay (cm : CellModel) (s : Stack) : (updateDegradation cm s).turn_on_delay = s.turn_on_delay :=
  (updateDegradation_const cm s).2.2.2.2.2.2.2.2.2.2.2.2.2.2.2.1

lemma updDeg_hour_change (cm : CellModel) (s : Stack) : (updateDegradation cm s).hour_change = s.hour_change :=
  (updateDegradation_const cm s).2.2.2.2.2.2.2.2.2.2.2.2.2.2.2.2.1

lemma updDeg_voltage_signal (cm : CellModel) (s : Stack) : (updateDegradation cm s).voltage_signal = s.voltage_signal :=
  (updateDegradation_const cm s).2.2.2.2.2.2.2.2.2.2.2.2.2.2.2.2.2.1

lemma updDeg_voltage_history (cm : CellModel) (s : Stack) : (updateDegradation cm s).voltage_history = s.voltage_history :=
  (updateDegradation_const cm s).2.2.2.2.2.2.2.2.2.2.2.2.2.2.2.2.2.2

lemma runFin_d_s (s : Stack) (v : ℚ) : (runStackFinish s v).d_s = s.d_s :=
  (runStackFinish_const s v).1

lemma runFin_d_o (s : Stack) (v : ℚ) : (runStackFinish s v).d_o = s.d_o :=
  (runStackFinish_const s v).2.1

lemma runFin_d_f (s : Stack) (v : ℚ) : (runStackFinish s v).d_f = s.d_f :=
  (runStackFinish_const s v).2.2.1

lemma runFin_fatigue_history (s : Stack) (v : ℚ) : (runStackFinish s v).fatigue_history = s.fatigue_history :=
  (runStackFinish_const s v).2.2.2.1

lemma runFin_rf_track (s : Stack) (v : ℚ) : (runStackFinish s v).rf_track = s.rf_track :=
  (runStackFinish_const s v).2.2.2.2.1

lemma runFin_V_degradation (s : Stack) (v : ℚ) : (runStackFinish s v).V_degradation = s.V_degradation :=
  (runStackFinish_const s v).2.2.2.2.2.1

lemma runFin_uptime (s : Stack) (v : ℚ) : (runStackFinish s v).uptime = s.uptime :=
  (runStackFinish_const s v).2.2.2.2.2.2.1

lemma runFin_dt (s : Stack) (v : ℚ) : (runStackFinish s v).dt = s.dt :=
  (runStackFinish_const s v).2.2.2.2.2.2.2.1

lemma runFin_rate_steady (s : Stack) (v : ℚ) : (runStackFinish s v).rate_steady = s.rate_steady :=
  (runStackFinish_const s v).2.2.2.2.2.2.2.2.1

lemma runFin_rate_fatigue (s : Stack) (v : ℚ) : (runStackFinish s v).rate_fatigue = s.rate_fatigue :=
  (runStackFinish_const s v).2.2.2.2.2.2.2.2.2.1

lemma runFin_rate_onoff (s : Stack) (v : ℚ) : (runStackFinish s v).rate_onoff = s.rate_onoff :=
  (runStackFinish_const s v).2.2.2.2.2.2.2.2.2.2.1

lemma runFin_cycle_count (s : Stack) (v : ℚ) : (runStackFinish s v).cycle_count = s.cycle_count :=
  (runStackFinish_const s v).2.2.2.2.2.2.2.2.2.2.2.1

lemma runFin_stack_on (s : Stack) (v : ℚ) : (runStackFinish s v).stack_on = s.stack_on :=
  (runStackFinish_const s v).2.2.2.2.2.2.2.2.2.2.2.2.1

lemma runFin_stack_waiting (s : Stack) (v : ℚ) : (runStackFinish s v).stack_waiting = s.stack_waiting :=
  (runStackFinish_const s v).2.2.2.2.2.2.2.2.2.2.2.2.2.1

lemma runFin_wait_time (s : Stack) (v : ℚ) : (runStackFinish s v).wait_time = s.wait_time :=
  (runStackFinish_const s v).2.2.2.2.2.2.2.2.2.2.2.2.2.2.1

lemma runFin_turn_on_time (s : Stack) (v : ℚ) : (runStackFinish s v).turn_on_time = s.turn_on_time :=
  (runStackFinish_const s v).2.2.2.2.2.2.2.2.2.2.2.2.2.2.2.1

lemma runFin_turn_off_time (s : Stack) (v : ℚ) : (runStackFinish s v).turn_off_time = s.turn_off_time :=
  (runStackFinish_const s v).2.2.2.2.2.2.2.2.2.2.2.2.2.2.2.2.1

lemma runFin_turn_on_delay (s : Stack) (v : ℚ) : (runStackFinish s v).turn_on_delay = s.turn_on_delay :=
  (runStackFinish_const s v).2.2.2.2.2.2.2.2.2.2.2.2.2.2.2.2.2.1

lemma runFin_time (s : Stack) (v : ℚ) : (runStackFinish s v).time = s.time + s.dt :=
  (runStackFinish_const s v).2.2.2.2.2.2.2.2.2.2.2.2.2.2.2.2.2.2.1

lemma runFin_cell_voltage (s : Stack) (v : ℚ) : (runStackFinish s v).cell_voltage = v :=
  (runStackFinish_const s v).2.2.2.2.2.2.2.2.2.2.2.2.2.2.2.2.2.2.2

/-- `Stack.run` is the composition of `updateStatus`, `runIV`, `runStackCore`
and `runStackFinish`. -/
lemma run_stack_fields (cm : CellModel) (s : Stack) (P : ℚ) :
    (Stack.run cm s P).stack =
      runStackFinish
        (runStackCore cm (updateStatus s) (runIV cm (updateStatus s) P).1
          (runIV cm (updateStatus s) P).2 P).1
        (runStackCore cm (updateStatus s) (runIV cm (updateStatus s) P).1
          (runIV cm (updateStatus s) P).2 P).2.2.2.2 ∧
    (Stack.run cm s P).power_left =
      (runStackCore cm (updateStatus s) (runIV cm (updateStatus s) P).1
        (runIV cm (updateStatus s) P).2 P).2.2.2.1 :=
  ⟨rfl, rfl⟩

/-- A `run` step leaves the operating-mode flags exactly as `update_status`
set them. -/
lemma run_flags (cm : CellModel) (s : Stack) (P : ℚ) :
    (Stack.run cm s P).stack.stack_on = (updateStatus s).stack_on ∧
    (Stack.run cm s P).stack.stack_waiting = (updateStatus s).stack_waiting := by
  obtain ⟨hrs, -⟩ := run_stack_fields cm s P
  rw [hrs, runFin_stack_on, runFin_stack_waiting]
  rcases runStackCore_cases cm (updateStatus s) (runIV cm (updateStatus s) P).1
      (runIV cm (updateStatus s) P).2 P with
    ⟨hon, a, u, h1, hu, hv⟩ | ⟨hon, hw, a, h1, hpl, hv⟩ | ⟨hon, hw, a, h1, hpl, hv⟩ <;>
  rw [h1] <;>
  exact ⟨by simp [updDeg_stack_on], by simp [updDeg_stack_waiting]⟩

/-- A `run` step advances `time` by `dt` and does not touch the turn-on/off
bookkeeping. -/
lemma run_time_fields (cm : CellModel) (s : Stack) (P : ℚ) :
    (Stack.run cm s P).stack.time = s.time + s.dt ∧
    (Stack.run cm s P).stack.dt = s.dt ∧
    (Stack.run cm s P).stack.wait_time = s.wait_time ∧
    (Stack.run cm s P).stack.turn_on_time = s.turn_on_time ∧
    (Stack.run cm s P).stack.turn_off_time = s.turn_off_time ∧
    (Stack.run cm s P).stack.turn_on_delay = s.turn_on_delay := by
  obtain ⟨hrs, -⟩ := run_stack_fields cm s P
  rw [hrs, runFin_time, runFin_dt, runFin_wait_time, runFin_turn_on_time,
    runFin_turn_off_time, runFin_turn_on_delay]
  rcases runStackCore_cases cm (updateStatus s) (runIV cm (updateStatus s) P).1
      (runIV cm (updateStatus s) P).2 P with
    ⟨hon, a, u, h1, hu, hv⟩ | ⟨hon, hw, a, h1, hpl, hv⟩ | ⟨hon, hw, a, h1, hpl, hv⟩ <;>
  rw [h1] <;>
  refine ⟨?_, ?_, ?_, ?_, ?_, ?_⟩ <;>
  simp [updDeg_time, updDeg_dt, updDeg_wait_time, updDeg_turn_on_time,
    updDeg_turn_off_time, updDeg_turn_on_delay, updSt_time, updSt_dt, updSt_wait_time,
    updSt_turn_on_time, updSt_turn_off_time, updSt_turn_on_delay]

/-! ### Concrete instantiations used by counterexamples and witnesses -/

/-- A minimal cell model: current equals input power in kW, constant 1 V cells,
zero mass flow, zero rainflow sum. -/
def cmConstV : CellModel := ⟨fun p _ => p, fun _ _ => 1, fun _ _ => 0, fun _ => 0⟩

/-- A cell model whose cell voltage equals the stack current (so that varying
power produces a varying voltage signal), with unit rainflow sum. -/
def cmRampV : CellModel := ⟨fun p _ => p, fun i _ => i, fun _ _ => 0, fun _ => 1⟩

/-- Trivial state-space coefficients (the filter itself is exercised only
through `ignore_dynamics` in the claims). -/
def dtssZero : DTSS := ⟨0, 0, 0, 0⟩

/-- A stack mid-startup: turned on at `time = 0` with `dt = 1`, so the 600 s
wait has not elapsed. -/
def stackW : Stack := turnStackOn (initStack 1 30 2 1 1 1 true true 1 dtssZero)

/-! ### C7 — life estimators at zero degradation -/

/-- C7, counterexample: on a freshly constructed stack (`V_degradation = 0`,
`d_eol = 1 ≠ 0`) both estimators hit Python's `1 / 0.0` and raise
`ZeroDivisionError` (modelled as `none`): no sentinel value (zero or infinity)
is returned, contradicting the claim. -/
theorem claim7_counterexample :
    estimateTimeUntilReplacement (initStack 1 25 1 0 0 0 true true 1 dtssZero) = none ∧
    estimateStackLife (initStack 1 25 1 0 0 0 true true 1 dtssZero) = none ∧
    (initStack 1 25 1 0 0 0 true true 1 dtssZero).V_degradation = 0 ∧
    (initStack 1 25 1 0 0 0 true true 1 dtssZero).d_eol = 1 := by
  norm_num [estimateTimeUntilReplacement, estimateStackLife, initStack, dtssZero]

/-- C7, amended: calling `estimate_time_until_replacement` or
`estimate_stack_life` on a stack whose `V_degradation` is zero divides by the
zero life fraction and raises `ZeroDivisionError` (modelled as `none`); there is
no guard returning a sentinel. -/
theorem claim7_amended (s : Stack) (h : s.V_degradation = 0) :
    estimateTimeUntilReplacement s = none ∧ estimateStackLife s = none := by
  simp [estimateTimeUntilReplacement, estimateStackLife, h]

/-- C7, witness: the amended theorem applied at a concrete fresh stack. -/
theorem claim7_witness :
    estimateTimeUntilReplacement (initStack 2 30 5 0 0 0 false false 3 dtssZero) = none ∧
    estimateStackLife (initStack 2 30 5 0 0 0 false false 3 dtssZero) = none :=
  claim7_amended _ (by decide)

/-! ### C9 — mode exclusivity -/

/-- One stack operation preserves the exclusion of `stack_on` and
`stack_waiting`. -/
lemma mutex_step (cm : CellModel) (s : Stack) (op : StackOp)
    (h : ¬(s.stack_on = true ∧ s.stack_waiting = true)) :
    ¬((applyOp cm s op).stack_on = true ∧ (applyOp cm s op).stack_waiting = true) := by
  cases op with
  | runOp P =>
    show ¬((Stack.run cm s P).stack.stack_on = true ∧
        (Stack.run cm s P).stack.stack_waiting = true)
    obtain ⟨h1, h2⟩ := run_flags cm s P
    rw [h1, h2]
    rcases updateStatus_cases s with hu | hu <;> rw [hu]
    · exact h
    · simp
  | turnOnOp =>
    show ¬((turnStackOn s).stack_on = true ∧ (turnStackOn s).stack_waiting = true)
    rcases turnStackOn_cases s with ht | ⟨hon, t, ht⟩ <;> rw [ht]
    · exact h
    · simp [hon]
  | turnOffOp =>
    show ¬((turnStackOff s).stack_on = true ∧ (turnStackOff s).stack_waiting = true)
    rcases turnStackOff_cases s with ⟨ht, -, -⟩ | ht <;> rw [ht]
    · exact h
    · simp

lemma applyOps_cons (cm : CellModel) (s : Stack) (op : StackOp) (rest : List StackOp) :
    applyOps cm s (op :: rest) = applyOps cm (applyOp cm s op) rest := rfl

lemma applyOps_append (cm : CellModel) (s : Stack) (l1 l2 : List StackOp) :
    applyOps cm s (l1 ++ l2) = applyOps cm (applyOps cm s l1) l2 := by
  simp [applyOps, List.foldl_append]

/-- C9: from construction, under any sequence of operations, a stack is never
simultaneously On and Waiting; `turn_stack_on` is a no-op on an On stack; and
`turn_stack_off` always leaves both flags cleared. -/
theorem claim9_mode_exclusion (cm : CellModel) (dt T n rs rfq ro : ℚ) (inc hyd : Bool)
    (de : ℚ) (dts : DTSS) (ops : List StackOp) :
    (¬((applyOps cm (initStack dt T n rs rfq ro inc hyd de dts) ops).stack_on = true ∧
        (applyOps cm (initStack dt T n rs rfq ro inc hyd de dts) ops).stack_waiting = true)) ∧
    (∀ s : Stack, s.stack_on = true → turnStackOn s = s) ∧
    (∀ s : Stack, (turnStackOff s).stack_on = false ∧ (turnStackOff s).stack_waiting = false) := by
  refine ⟨?_, ?_, ?_⟩
  · have step : ∀ l (s : Stack), ¬(s.stack_on = true ∧ s.stack_waiting = true) →
        ¬((applyOps cm s l).stack_on = true ∧ (applyOps cm s l).stack_waiting = true) := by
      intro l
      induction l with
      | nil => exact fun s h => h
      | cons op rest ih =>
        intro s h
        rw [applyOps_cons]
        exact ih _ (mutex_step cm s op h)
    exact step ops _ (by simp [initStack])
  · intro s hs
    simp [turnStackOn, hs]
  · intro s
    rcases turnStackOff_cases s with ⟨ht, h1, h2⟩ | ht <;> rw [ht]
    · exact ⟨h1, h2⟩
    · simp

/-- C9, witness: the no-op and flag-clearing conjuncts applied at concrete
stacks (an On stack obtained by a zero-delay startup, and `stackW`). -/
theorem claim9_witness :
    turnStackOn (updateStatus (turnStackOn (initStack 2000 25 1 0 0 0 true true 1 dtssZero))) =
      updateStatus (turnStackOn (initStack 2000 25 1 0 0 0 true true 1 dtssZero)) ∧
    (turnStackOff stackW).stack_on = false ∧ (turnStackOff stackW).stack_waiting = false :=
  ⟨(claim9_mode_exclusion cmConstV 2000 25 1 0 0 0 true true 1 dtssZero []).2.1 _
      (by norm_num [updateStatus, turnStackOn, initStack, dtssZero]),
   (claim9_mode_exclusion cmConstV 2000 25 1 0 0 0 true true 1 dtssZero []).2.2 stackW⟩

/-! ### C8 — zero degradation rates give zero degradation forever -/

/-- The zero-rate invariant: all three rate constants zero, and the steady,
fatigue and total accumulators zero. -/
def ZeroDeg (s : Stack) : Prop :=
  s.rate_steady = 0 ∧ s.rate_fatigue = 0 ∧ s.rate_onoff = 0 ∧
  s.d_s = 0 ∧ s.fatigue_history = 0 ∧ s.V_degradation = 0

lemma zeroDeg_updateDegradation (cm : CellModel) (s : Stack) (h : ZeroDeg s) :
    ZeroDeg (updateDegradation cm s) := by
  obtain ⟨h1, h2, h3, h4, h5, h6⟩ := h
  have hfh : (updateDegradation cm s).fatigue_history = 0 := by
    rcases updateDegradation_fatigue_cases cm s with ⟨hf, -⟩ | ⟨-, hf⟩
    · rw [hf]; exact h5
    · rw [hf, h2]; ring
  refine ⟨by rw [updDeg_rate_steady]; exact h1,
    by rw [updDeg_rate_fatigue]; exact h2,
    by rw [updDeg_rate_onoff]; exact h3,
    by rw [updateDegradation_d_s, h1, h4]; ring, hfh, ?_⟩
  rw [updateDegradation_V, updateDegradation_d_s, updateDegradation_d_o, hfh, h1, h3, h4]
  ring

lemma zeroDeg_step (cm : CellModel) (s : Stack) (op : StackOp) (h : ZeroDeg s) :
    ZeroDeg (applyOp cm s op) := by
  cases op with
  | turnOnOp =>
    show ZeroDeg (turnStackOn s)
    rcases turnStackOn_cases s with ht | ⟨-, t, ht⟩ <;> rw [ht] <;> exact h
  | turnOffOp =>
    show ZeroDeg (turnStackOff s)
    rcases turnStackOff_cases s with ⟨ht, -, -⟩ | ht <;> rw [ht] <;> exact h
  | runOp P =>
    show ZeroDeg (Stack.run cm s P).stack
    obtain ⟨hrs, -⟩ := run_stack_fields cm s P
    rw [hrs]
    have hfin : ∀ (t : Stack) (v : ℚ), ZeroDeg t → ZeroDeg (runStackFinish t v) := by
      intro t v ht
      exact ⟨by rw [runFin_rate_steady]; exact ht.1,
        by rw [runFin_rate_fatigue]; exact ht.2.1,
        by rw [runFin_rate_onoff]; exact ht.2.2.1,
        by rw [runFin_d_s]; exact ht.2.2.2.1,
        by rw [runFin_fatigue_history]; exact ht.2.2.2.2.1,
        by rw [runFin_V_degradation]; exact ht.2.2.2.2.2⟩
    apply hfin
    have hst : ZeroDeg (updateStatus s) := by
      rcases updateStatus_cases s with hu | hu <;> rw [hu] <;> exact h
    rcases runStackCore_cases cm (updateStatus s) (runIV cm (updateStatus s) P).1
        (runIV cm (updateStatus s) P).2 P with
      ⟨hon, a, u, h1, hu, hv⟩ | ⟨hon, hw, a, h1, hpl, hv⟩ | ⟨hon, hw, a, h1, hpl, hv⟩ <;>
      rw [h1]
    · exact zeroDeg_updateDegradation cm _ hst
    · exact zeroDeg_updateDegradation cm _ hst
    · exact hst

/-- C8: a stack constructed with all three degradation rate constants zero
reports `V_degradation = 0` after every sequence of
run / turn_stack_on / turn_stack_off operations. -/
theorem claim8_zero_degradation (cm : CellModel) (dt T n : ℚ) (inc hyd : Bool)
    (de : ℚ) (dts : DTSS) (ops : List StackOp) :
    (applyOps cm (initStack dt T n 0 0 0 inc hyd de dts) ops).V_degradation = 0 := by
  have step : ∀ l (s : Stack), ZeroDeg s → ZeroDeg (applyOps cm s l) := by
    intro l
    induction l with
    | nil => exact fun s h => h
    | cons op rest ih =>
      intro s h
      rw [applyOps_cons]
      exact ih _ (zeroDeg_step cm s op h)
  exact (step ops _ (by simp [ZeroDeg, initStack])).2.2.2.2.2

/-! ### C1 — Waiting-state power accounting -/

/-- C1, counterexample: a stack that is Waiting when `run(P_in)` executes
(`stackW`, still inside its 600 s wait) returns `power_left = 0`, not
`power_left = P_in = 5` as the claim states. -/
theorem claim1_counterexample :
    (updateStatus stackW).stack_waiting = true ∧
    (updateStatus stackW).stack_on = false ∧
    (Stack.run cmConstV stackW 5).power_left = 0 ∧
    ((0 : ℚ) ≠ 5) := by
  refine ⟨?_, ?_, ?_, by norm_num⟩ <;>
  norm_num [stackW, Stack.run, runIV, runH2DegPenalty, runPowerDegPenalty, runStack,
    runStackCore, runStackFinish, updateStatus, updateDegradation, updateDynamics,
    calcStackPower, turnStackOn, initStack, cmConstV, dtssZero, listMax, listMin]

/-- C1, amended: when a stack is Waiting after the automatic Waiting-to-On
check, `run(P_in)` reports `power_left = 0` — all requested power is reported
as consumed — while uptime still accumulates by `dt` and steady degradation
still accrues. -/
theorem claim1_amended (cm : CellModel) (s : Stack) (P : ℚ)
    (hw : (updateStatus s).stack_waiting = true)
    (hon : (updateStatus s).stack_on = false) :
    (Stack.run cm s P).power_left = 0 ∧
    (Stack.run cm s P).stack.uptime = s.uptime + s.dt ∧
    (Stack.run cm s P).stack.d_s = s.d_s + s.rate_steady * s.cell_voltage * s.dt := by
  obtain ⟨hrs, hpl⟩ := run_stack_fields cm s P
  rcases runStackCore_cases cm (updateStatus s) (runIV cm (updateStatus s) P).1
      (runIV cm (updateStatus s) P).2 P with
    ⟨h1, -⟩ | ⟨-, -, a, h1, hpl0, -⟩ | ⟨-, hw0, -⟩
  · rw [hon] at h1
    exact absurd h1 (by simp)
  · refine ⟨?_, ?_, ?_⟩
    · rw [hpl, hpl0]
    · rw [hrs, runFin_uptime, h1, updDeg_uptime]
      simp [updSt_uptime, updSt_dt]
    · rw [hrs, runFin_d_s, h1, updateDegradation_d_s]
      simp [updSt_d_s, updSt_rate_steady, updSt_cell_voltage, updSt_dt]
  · rw [hw] at hw0
    exact absurd hw0 (by simp)

/-- C1, witness: the amended theorem applied to the concrete waiting stack
`stackW` with `P_in = 7`. -/
theorem claim1_witness :
    (Stack.run cmConstV stackW 7).power_left = 0 ∧
    (Stack.run cmConstV stackW 7).stack.uptime = stackW.uptime + stackW.dt ∧
    (Stack.run cmConstV stackW 7).stack.d_s =
      stackW.d_s + stackW.rate_steady * stackW.cell_voltage * stackW.dt :=
  claim1_amended cmConstV stackW 7
    (by norm_num [stackW, updateStatus, turnStackOn, initStack, dtssZero])
    (by norm_num [stackW, updateStatus, turnStackOn, initStack, dtssZero])

/-! ### C5 — when fatigue is evaluated -/

lemma updateDegradation_fh_of_flag (cm : CellModel) (s : Stack)
    (h : s.hour_change = false) :
    (updateDegradation cm s).fatigue_history = s.fatigue_history := by
  apply updateDegradation_fh_of_not
  rw [h]
  simp

lemma updateDegradation_fh_of_perc (cm : CellModel) (s : Stack)
    (h : (listMax (s.voltage_signal.filter (fun v => v ≠ 0)) -
        listMin (s.voltage_signal.filter (fun v => v ≠ 0))) /
        listMax (s.voltage_signal.filter (fun v => v ≠ 0)) ≤ 1 / 20) :
    (updateDegradation cm s).fatigue_history = s.fatigue_history := by
  apply updateDegradation_fh_of_not
  rintro ⟨-, -, hgt⟩
  exact absurd hgt (not_lt.2 h)

/-- The concrete hour-boundary trace for C5: a stack with `dt = 1800 s`
(so `turn_on_delay = 0`), unit fatigue rate, run On for three steps with
voltages 1 V then 2 V (the second hour): after the third step the first hour's
signal `[1, 2]` is stored and `hour_change` is set. -/
def stackHr : Stack := applyOps cmRampV (initStack 1800 25 1 0 1 0 true true 1 dtssZero)
  [.turnOnOp, .runOp 1000, .runOp 2000]

/-- C5, counterexample: the fatigue evaluation for the hour that ended at
`time = 3600` happens during the run step from `3600` to `5400`, a step across
which `floor(time/3600)` does **not** change (it is 1 on both sides) — i.e. the
evaluation fires mid-hour, one step after the boundary, contradicting
"exactly when floor(time/3600) changes across a run step, never mid-hour". -/
theorem claim5_counterexample :
    (applyOp cmRampV stackHr (.runOp 2000)).fatigue_history ≠ stackHr.fatigue_history ∧
    (applyOp cmRampV stackHr (.runOp 2000)).hourly_counter = stackHr.hourly_counter := by
  have hf0 : ⌊(1/2 : ℚ)⌋ = 0 := by
    rw [Int.floor_eq_iff]
    norm_num
  have hf1 : ⌊(1 : ℚ)⌋ = 1 := Int.floor_one
  have hf32 : ⌊(3/2 : ℚ)⌋ = 1 := by
    rw [Int.floor_eq_iff]
    norm_num
  have hne : ([1, 2] : List ℚ) ≠ [] := by simp
  constructor <;>
  norm_num [stackHr, applyOps, applyOp, Stack.run, runIV, runH2DegPenalty,
    runPowerDegPenalty, runStack, runStackCore, runStackFinish, updateStatus,
    updateDegradation, updateDynamics, calcStackPower, turnStackOn, initStack,
    cmRampV, dtssZero, listMax, listMin, hf0, hf1, hf32, hne, List.foldl]

/-- C5, amended: during a `run` step, `fatigue_history` can change only if
`hour_change` was set at the end of the previous step (i.e. `floor(time/3600)`
changed across the *previous* step) and the stack is On or Waiting after the
automatic status update; and it is always left unchanged when the stored hour's
nonzero-sample peak-to-peak variation is at most 5% of the peak. -/
theorem claim5_amended (cm : CellModel) (s : Stack) (P : ℚ) :
    (s.hour_change = false →
      (Stack.run cm s P).stack.fatigue_history = s.fatigue_history) ∧
    ((listMax (s.voltage_signal.filter (fun v => v ≠ 0)) -
        listMin (s.voltage_signal.filter (fun v => v ≠ 0))) /
        listMax (s.voltage_signal.filter (fun v => v ≠ 0)) ≤ 1 / 20 →
      (Stack.run cm s P).stack.fatigue_history = s.fatigue_history) ∧
    ((updateStatus s).stack_on = false → (updateStatus s).stack_waiting = false →
      (Stack.run cm s P).stack.fatigue_history = s.fatigue_history) := by
  obtain ⟨hrs, -⟩ := run_stack_fields cm s P
  have hfh : (Stack.run cm s P).stack.fatigue_history =
      (runStackCore cm (updateStatus s) (runIV cm (updateStatus s) P).1
        (runIV cm (updateStatus s) P).2 P).1.fatigue_history := by
    rw [hrs, runFin_fatigue_history]
  rcases runStackCore_cases cm (updateStatus s) (runIV cm (updateStatus s) P).1
      (runIV cm (updateStatus s) P).2 P with
    ⟨hon, a, u, h1, hu, hv⟩ | ⟨hon, hw, a, h1, -, -⟩ | ⟨hon, hw, a, h1, -, -⟩
  · refine ⟨?_, ?_, ?_⟩
    · intro hc
      rw [hfh, h1]
      refine (updateDegradation_fh_of_flag cm _ ?_).trans ?_
      · exact (updSt_hour_change s).trans hc
      · exact updSt_fatigue_history s
    · intro hperc
      rw [← updSt_voltage_signal s] at hperc
      rw [hfh, h1]
      refine (updateDegradation_fh_of_perc cm _ ?_).trans ?_
      · exact hperc
      · exact updSt_fatigue_history s
    · intro hno hnw
      rw [hon] at hno
      exact absurd hno (by simp)
  · refine ⟨?_, ?_, ?_⟩
    · intro hc
      rw [hfh, h1]
      refine (updateDegradation_fh_of_flag cm _ ?_).trans ?_
      · exact (updSt_hour_change s).trans hc
      · exact updSt_fatigue_history s
    · intro hperc
      rw [← updSt_voltage_signal s] at hperc
      rw [hfh, h1]
      refine (updateDegradation_fh_of_perc cm _ ?_).trans ?_
      · exact hperc
      · exact updSt_fatigue_history s
    · intro hno hnw
      rw [hw] at hnw
      exact absurd hnw (by simp)
  · have hfin : (Stack.run cm s P).stack.fatigue_history = s.fatigue_history := by
      rw [hfh, h1]
      exact updSt_fatigue_history s
    exact ⟨fun _ => hfin, fun _ => hfin, fun _ _ => hfin⟩

/-- C5, witness: the amended theorem applied at a fresh stack (whose
`hour_change` flag is clear). -/
theorem claim5_witness :
    (Stack.run cmConstV (initStack 1 25 1 0 0 0 true true 1 dtssZero) 5).stack.fatigue_history =
      (initStack 1 25 1 0 0 0 true true 1 dtssZero).fatigue_history :=
  (claim5_amended cmConstV (initStack 1 25 1 0 0 0 true true 1 dtssZero) 5).1 rfl

/-! ### C6 — partial wait-time credit -/

lemma updateStatus_off (s : Stack) (hon : s.stack_on = false) (hw : s.stack_waiting = false) :
    updateStatus s = s := by
  simp [updateStatus, hon, hw]

lemma updateStatus_onw (s : Stack) (h : s.stack_on = true ∨ s.stack_waiting = true) :
    (updateStatus s).stack_on = true ∨ (updateStatus s).stack_waiting = true := by
  rcases updateStatus_cases s with hu | hu <;> rw [hu]
  · exact h
  · left
    rfl

lemma turnStackOn_off (s : Stack) (hon : s.stack_on = false) (hw : s.stack_waiting = false) :
    turnStackOn s = { s with
      turn_on_time := s.time
      stack_waiting := true
      wait_time := min (s.wait_time + (s.time - s.turn_off_time)) s.turn_on_delay } := by
  simp [turnStackOn, hon, hw]

lemma turnStackOff_onw (s : Stack) (h : s.stack_on = true ∨ s.stack_waiting = true) :
    turnStackOff s = { s with
      turn_off_time := s.time
      stack_on := false
      stack_waiting := false
      cycle_count := s.cycle_count + 1
      wait_time := max 0 (s.wait_time - (s.time - s.turn_on_time)) } := by
  unfold turnStackOff
  rw [if_pos h]

lemma run_preserves_off (cm : CellModel) (s : Stack) (P : ℚ)
    (hon : s.stack_on = false) (hw : s.stack_waiting = false) :
    (Stack.run cm s P).stack.stack_on = false ∧
      (Stack.run cm s P).stack.stack_waiting = false := by
  obtain ⟨h1, h2⟩ := run_flags cm s P
  rw [h1, h2, updateStatus_off s hon hw]
  exact ⟨hon, hw⟩

lemma run_preserves_onw (cm : CellModel) (s : Stack) (P : ℚ)
    (h : s.stack_on = true ∨ s.stack_waiting = true) :
    (Stack.run cm s P).stack.stack_on = true ∨
      (Stack.run cm s P).stack.stack_waiting = true := by
  obtain ⟨h1, h2⟩ := run_flags cm s P
  rw [h1, h2]
  exact updateStatus_onw s h

/-- `k` consecutive `run` steps advance `time` by `k·dt`, leave the wait-time
bookkeeping untouched, and preserve both "on or waiting" and "off". -/
lemma applyOps_replicate_run (cm : CellModel) (P : ℚ) :
    ∀ (k : ℕ) (s : Stack),
      (applyOps cm s (List.replicate k (.runOp P))).time = s.time + k * s.dt ∧
      (applyOps cm s (List.replicate k (.runOp P))).dt = s.dt ∧
      (applyOps cm s (List.replicate k (.runOp P))).wait_time = s.wait_time ∧
      (applyOps cm s (List.replicate k (.runOp P))).turn_on_time = s.turn_on_time ∧
      (applyOps cm s (List.replicate k (.runOp P))).turn_off_time = s.turn_off_time ∧
      (applyOps cm s (List.replicate k (.runOp P))).turn_on_delay = s.turn_on_delay ∧
      ((s.stack_on = true ∨ s.stack_waiting = true) →
        (applyOps cm s (List.replicate k (.runOp P))).stack_on = true ∨
          (applyOps cm s (List.replicate k (.runOp P))).stack_waiting = true) ∧
      (s.stack_on = false → s.stack_waiting = false →
        (applyOps cm s (List.replicate k (.runOp P))).stack_on = false ∧
          (applyOps cm s (List.replicate k (.runOp P))).stack_waiting = false)
  | 0, s => by
      refine ⟨by simp [applyOps], rfl, rfl, rfl, rfl, rfl, fun h => h,
        fun h1 h2 => ⟨h1, h2⟩⟩
  | k + 1, s => by
      have hstep : applyOp cm s (.runOp P) = (Stack.run cm s P).stack := rfl
      rw [List.replicate_succ, applyOps_cons, hstep]
      obtain ⟨i1, i2, i3, i4, i5, i6, i7, i8⟩ :=
        applyOps_replicate_run cm P k (Stack.run cm s P).stack
      obtain ⟨t1, t2, t3, t4, t5, t6⟩ := run_time_fields cm s P
      refine ⟨?_, ?_, ?_, ?_, ?_, ?_, ?_, ?_⟩
      · rw [i1, t1, t2]
        push_cast
        ring
      · rw [i2, t2]
      · rw [i3, t3]
      · rw [i4, t4]
      · rw [i5, t5]
      · rw [i6, t6]
      · intro h
        exact i7 (run_preserves_onw cm s P h)
      · intro hon hw
        obtain ⟨o1, o2⟩ := run_preserves_off cm s P hon hw
        exact i8 o1 o2

/-- The concrete trace for the C6 counterexample: turn on at `t = 0`
(`dt = 100`, full 600 s wait charged), run once (turn-off at `t = 100`, still
waiting, credit becomes 500), stay off for two steps, and turn on again at
`t = 300`. -/
def stackC6 : Stack := applyOps cmConstV (initStack 100 25 1 0 0 0 true true 1 dtssZero)
  [.turnOnOp, .runOp 0, .turnOffOp, .runOp 0, .runOp 0, .turnOnOp]

set_option maxHeartbeats 1000000 in
/-- C6, counterexample: the stack is turned off at `t = 100`, before its 600 s
wait has elapsed, yet the second `turn_stack_on` at `t = 300` charges the full
`turn_on_delay` again: `wait_time = 600 = turn_on_delay`, because the off-gap
(200 s) exceeded the on-time (100 s) and `min(w + (t_on - t_off), delay)`
saturates.  This contradicts the claimed strict inequality. -/
theorem claim6_counterexample :
    (applyOps cmConstV (initStack 100 25 1 0 0 0 true true 1 dtssZero)
      [.turnOnOp, .runOp 0]).stack_waiting = true ∧
    stackC6.wait_time = 600 ∧
    stackC6.turn_on_delay = 600 ∧
    ¬(stackC6.wait_time < stackC6.turn_on_delay) := by
  have hf36 : ⌊(1/36 : ℚ)⌋ = 0 := by
    rw [Int.floor_eq_iff]
    norm_num
  have hf18 : ⌊(1/18 : ℚ)⌋ = 0 := by
    rw [Int.floor_eq_iff]
    norm_num
  have hf12 : ⌊(1/12 : ℚ)⌋ = 0 := by
    rw [Int.floor_eq_iff]
    norm_num
  have hw : stackC6.wait_time = 600 := by
    norm_num [stackC6, applyOps, applyOp, Stack.run, runIV, runH2DegPenalty,
      runPowerDegPenalty, runStack, runStackCore, runStackFinish, updateStatus,
      updateDegradation, updateDynamics, calcStackPower, turnStackOn, turnStackOff,
      initStack, cmConstV, dtssZero, listMax, listMin, hf36, hf18, hf12, List.foldl]
  have hd : stackC6.turn_on_delay = 600 := by
    norm_num [stackC6, applyOps, applyOp, Stack.run, runIV, runH2DegPenalty,
      runPowerDegPenalty, runStack, runStackCore, runStackFinish, updateStatus,
      updateDegradation, updateDynamics, calcStackPower, turnStackOn, turnStackOff,
      initStack, cmConstV, dtssZero, listMax, listMin, hf36, hf18, hf12, List.foldl]
  have hwt : (applyOps cmConstV (initStack 100 25 1 0 0 0 true true 1 dtssZero)
      [.turnOnOp, .runOp 0]).stack_waiting = true := by
    norm_num [applyOps, applyOp, Stack.run, runIV, runH2DegPenalty,
      runPowerDegPenalty, runStack, runStackCore, runStackFinish, updateStatus,
      updateDegradation, updateDynamics, calcStackPower, turnStackOn,
      initStack, cmConstV, dtssZero, listMax, listMin, hf36, List.foldl]
  refine ⟨hwt, hw, hd, ?_⟩
  rw [hw, hd]
  exact lt_irrefl 600

/-- C6, amended: turning on (with a fully charged 600 s wait), turning off
after `k1` run steps (before the wait elapsed, `k1·dt < 600`), waiting `k2`
steps off and turning on again yields
`wait_time = 600 - k1·dt + k2·dt = min(credit + off-gap, delay)`; this is
strictly less than the full `turn_on_delay` **provided** the off-gap is
shorter than the prior on-time (`k2 < k1`) — without that proviso the credit
re-saturates at the full delay (see the counterexample). -/
theorem claim6_amended (cm : CellModel) (T n rs rfq ro dt P Q : ℚ) (inc hyd : Bool)
    (de : ℚ) (dts : DTSS) (k1 k2 : ℕ)
    (hdt0 : 0 < dt) (hdt : dt ≤ 1200) (hk1 : (k1 : ℚ) * dt < 600) (hk2 : k2 < k1) :
    ((applyOps cm (initStack dt T n rs rfq ro inc hyd de dts)
        ([.turnOnOp] ++ List.replicate k1 (.runOp P) ++ [.turnOffOp] ++
          List.replicate k2 (.runOp Q) ++ [.turnOnOp])).wait_time =
      600 - (k1 : ℚ) * dt + (k2 : ℚ) * dt) ∧
    ((applyOps cm (initStack dt T n rs rfq ro inc hyd de dts)
        ([.turnOnOp] ++ List.replicate k1 (.runOp P) ++ [.turnOffOp] ++
          List.replicate k2 (.runOp Q) ++ [.turnOnOp])).wait_time <
      (applyOps cm (initStack dt T n rs rfq ro inc hyd de dts)
        ([.turnOnOp] ++ List.replicate k1 (.runOp P) ++ [.turnOffOp] ++
          List.replicate k2 (.runOp Q) ++ [.turnOnOp])).turn_on_delay) := by
  have hkq : (k2 : ℚ) < (k1 : ℚ) := by exact_mod_cast hk2
  have hkk : (k2 : ℚ) * dt < (k1 : ℚ) * dt := mul_lt_mul_of_pos_right hkq hdt0
  set s0 := initStack dt T n rs rfq ro inc hyd de dts with hs0
  have hdelay : s0.turn_on_delay = 600 := by
    rw [hs0]
    show (if dt > 2 * 600 then (0 : ℚ) else 600) = 600
    rw [if_neg (by push_neg; linarith)]
  have h_on : s0.stack_on = false := by rw [hs0]; rfl
  have h_w : s0.stack_waiting = false := by rw [hs0]; rfl
  have h_time : s0.time = 0 := by rw [hs0]; rfl
  have h_ton : s0.turn_on_time = 0 := by rw [hs0]; rfl
  have h_toff : s0.turn_off_time = -s0.turn_on_delay := by rw [hs0]; rfl
  have h_dt : s0.dt = dt := by rw [hs0]; rfl
  have h_wait : s0.wait_time = 600 := by
    have hx : s0.wait_time = min (0 - -s0.turn_on_delay) s0.turn_on_delay := by rw [hs0]; rfl
    rw [hx, hdelay]
    norm_num
  have hA := turnStackOn_off s0 h_on h_w
  have hA_wait : (turnStackOn s0).wait_time = 600 := by
    simp only [hA]
    rw [h_wait, h_time, h_toff, hdelay]
    norm_num
  have hA_ton : (turnStackOn s0).turn_on_time = 0 := by
    simp only [hA]
    exact h_time
  have hA_delay : (turnStackOn s0).turn_on_delay = 600 := by
    simp only [hA]
    exact hdelay
  have hA_time : (turnStackOn s0).time = 0 := by
    simp only [hA]
    exact h_time
  have hA_dt : (turnStackOn s0).dt = dt := by
    simp only [hA]
    exact h_dt
  have hA_onw : (turnStackOn s0).stack_on = true ∨ (turnStackOn s0).stack_waiting = true := by
    simp only [hA]
    right
    trivial
  obtain ⟨b1, b2, b3, b4, b5, b6, b7, b8⟩ :=
    applyOps_replicate_run cm P k1 (turnStackOn s0)
  have hC := turnStackOff_onw _ (b7 hA_onw)
  have hC_wait : (turnStackOff (applyOps cm (turnStackOn s0)
      (List.replicate k1 (.runOp P)))).wait_time = 600 - (k1 : ℚ) * dt := by
    simp only [hC]
    rw [b3, hA_wait, b1, hA_time, hA_dt, b4, hA_ton]
    rw [max_eq_right (by linarith)]
    ring
  have hC_toff : (turnStackOff (applyOps cm (turnStackOn s0)
      (List.replicate k1 (.runOp P)))).turn_off_time = (k1 : ℚ) * dt := by
    simp only [hC]
    rw [b1, hA_time, hA_dt]
    ring
  have hC_time : (turnStackOff (applyOps cm (turnStackOn s0)
      (List.replicate k1 (.runOp P)))).time = (k1 : ℚ) * dt := by
    simp only [hC]
    rw [b1, hA_time, hA_dt]
    ring
  have hC_delay : (turnStackOff (applyOps cm (turnStackOn s0)
      (List.replicate k1 (.runOp P)))).turn_on_delay = 600 := by
    simp only [hC]
    rw [b6, hA_delay]
  have hC_dt : (turnStackOff (applyOps cm (turnStackOn s0)
      (List.replicate k1 (.runOp P)))).dt = dt := by
    simp only [hC]
    rw [b2, hA_dt]
  have hC_on : (turnStackOff (applyOps cm (turnStackOn s0)
      (List.replicate k1 (.runOp P)))).stack_on = false := by
    simp only [hC]
  have hC_w : (turnStackOff (applyOps cm (turnStackOn s0)
      (List.replicate k1 (.runOp P)))).stack_waiting = false := by
    simp only [hC]
  obtain ⟨d1, d2, d3, d4, d5, d6, d7, d8⟩ :=
    applyOps_replicate_run cm Q k2 (turnStackOff (applyOps cm (turnStackOn s0)
      (List.replicate k1 (.runOp P))))
  obtain ⟨hD_on, hD_w⟩ := d8 hC_on hC_w
  have hE := turnStackOn_off _ hD_on hD_w
  have hchain : applyOps cm s0 ([.turnOnOp] ++ List.replicate k1 (.runOp P) ++
      [.turnOffOp] ++ List.replicate k2 (.runOp Q) ++ [.turnOnOp]) =
      turnStackOn (applyOps cm (turnStackOff (applyOps cm (turnStackOn s0)
        (List.replicate k1 (.runOp P)))) (List.replicate k2 (.runOp Q))) := by
    rw [applyOps_append, applyOps_append, applyOps_append, applyOps_append]
    rfl
  rw [hchain]
  constructor
  · simp only [hE]
    rw [d3, hC_wait, d1, hC_time, hC_dt, d5, hC_toff]
    rw [min_eq_left (by linarith)]
    ring
  · simp only [hE]
    rw [d3, hC_wait, d1, hC_time, hC_dt, d5, hC_toff, d6, hC_delay]
    rw [min_eq_left (by linarith)]
    linarith

/-- C6, witness: the amended theorem at `dt = 100`, three on-steps, one
off-step. -/
theorem claim6_witness :
    ((applyOps cmConstV (initStack 100 25 1 0 0 0 true true 1 dtssZero)
        ([.turnOnOp] ++ List.replicate 3 (.runOp 0) ++ [.turnOffOp] ++
          List.replicate 1 (.runOp 0) ++ [.turnOnOp])).wait_time =
      600 - ((3 : ℕ) : ℚ) * 100 + ((1 : ℕ) : ℚ) * 100) ∧
    ((applyOps cmConstV (initStack 100 25 1 0 0 0 true true 1 dtssZero)
        ([.turnOnOp] ++ List.replicate 3 (.runOp 0) ++ [.turnOffOp] ++
          List.replicate 1 (.runOp 0) ++ [.turnOnOp])).wait_time <
      (applyOps cmConstV (initStack 100 25 1 0 0 0 true true 1 dtssZero)
        ([.turnOnOp] ++ List.replicate 3 (.runOp 0) ++ [.turnOffOp] ++
          List.replicate 1 (.runOp 0) ++ [.turnOnOp])).turn_on_delay) :=
  claim6_amended cmConstV 25 1 0 0 0 100 0 0 true true 1 dtssZero 3 1
    (by norm_num) (by norm_num) (by norm_num) (by norm_num)

/-! ### C10 — the unguarded division in `power_sharing_rotation` -/

lemma listAdd_replicate_zero (n : ℕ) :
    listAdd (List.replicate n 0) (List.replicate n 0) = List.replicate n 0 := by
  induction n with
  | zero => rfl
  | succ k ih =>
    simp only [List.replicate_succ, listAdd, List.zipWith_cons_cons, zero_add] at *
    rw [ih]

/-- C10: the final `power_in / sum(active + waiting)` of
`power_sharing_rotation` is not guarded against a zero divisor (unlike the
guarded division at the top of the method, inside `psrPhase`).  First part: the
precondition fails — the function reaches the degenerate division — whenever no
stack is active or waiting and `0 ≤ power_in < stack_rating / 2` (so the
add/shed phase turns nothing on).  Second part: whenever at least one stack is
active or waiting after the add/shed phase, the division is well-defined and
the policy returns a value. -/
theorem claim10_unguarded_division :
    (∀ (sup : Supervisor) (p : ℚ),
      sup.active = List.replicate sup.n_stacks 0 →
      sup.waiting = List.replicate sup.n_stacks 0 →
      0 ≤ p → p < sup.stack_rating / 2 → 0 < sup.stack_rating →
      powerSharingRotation sup p = none) ∧
    (∀ (sup : Supervisor) (p : ℚ) (sup1 : Supervisor),
      psrPhase sup p = some sup1 →
      (listAdd sup1.active sup1.waiting).sum ≠ 0 →
      (powerSharingRotation sup p).isSome = true) := by
  constructor
  · intro sup p h1 h2 h3 h4 h5
    have hrad : listAdd sup.active sup.waiting = List.replicate sup.n_stacks 0 := by
      rw [h1, h2]
      exact listAdd_replicate_zero sup.n_stacks
    have hsum0 : (listAdd sup.active sup.waiting).sum = 0 := by
      rw [hrad]
      simp
    have hhalf : 0 < sup.stack_rating / 2 := by linarith
    have hfl : ⌊p / (sup.stack_rating / 2)⌋ = 0 := by
      rw [Int.floor_eq_zero_iff]
      exact ⟨div_nonneg h3 hhalf.le, by rwa [div_lt_one hhalf]⟩
    have hmin : min ⌊p / (sup.stack_rating / 2)⌋ ((sup.n_stacks : ℤ)) = 0 := by
      rw [hfl]
      exact min_eq_left (Int.natCast_nonneg _)
    have hphase : psrPhase sup p = some sup := by
      simp only [psrPhase]
      rw [hsum0, hmin]
      norm_num
    simp only [powerSharingRotation]
    rw [hphase]
    simp only [hsum0, if_pos]
  · intro sup p sup1 hphase hsum
    simp only [powerSharingRotation]
    rw [hphase]
    simp only [if_neg hsum]
    split_ifs <;> rfl

/-- A one-stack supervisor with nothing active or waiting, rated 1000 W. -/
def supPSR : Supervisor :=
  { n_stacks := 1
    stack_rating_kW := 1
    stack_rating := 1000
    stack_min_power := 100
    control_type := .psRotation
    active := [0]
    waiting := [0]
    stack_rotation := [0]
    deg_state := [0]
    stacksList := [initStack 2000 25 1 0 0 0 true true 1 dtssZero]
    stacks_on := 0
    stacks_waiting := 0
    stacks_waiting_vec := [0] }

/-- C10, witness: with no stacks on and `power_in = 400 < 500 = rating/2`,
`power_sharing_rotation` reaches the division by `sum(active+waiting) = 0`. -/
theorem claim10_witness : powerSharingRotation supPSR 400 = none :=
  claim10_unguarded_division.1 supPSR 400 rfl rfl (by norm_num)
    (by norm_num [supPSR]) (by norm_num [supPSR])

/-! ### C2 — fleet power-balance -/

/-- The stack and supervisor of the C2 counterexample: one 1 kW stack
(`dt = 2000 s`, so the startup delay is skipped), equal-split-eager policy. -/
def stackC2 : Stack := initStack 2000 25 1 0 0 0 true true 1 dtssZero

def supC2 : Supervisor :=
  { n_stacks := 1
    stack_rating_kW := 1
    stack_rating := 1000
    stack_min_power := 100
    control_type := .evenSplitEager
    active := [0]
    waiting := [0]
    stack_rotation := [0]
    deg_state := [0]
    stacksList := [stackC2]
    stacks_on := 0
    stacks_waiting := 0
    stacks_waiting_vec := [0] }

set_option maxHeartbeats 1600000 in
/-- C2, counterexample: with `power_in = 1000`, the eager policy allocates the
full 1000 W to the single stack, which turns on and consumes only 1 W under the
toy cell model (1 V, 1 A, one cell), reporting `power_left = 999`; curtailment
is `max(0, 1000 - 1000) = 0`.  The claimed balance gives
`1000 + 999 + 0 = 1999 ≠ 1000`: the allocated power of on-or-waiting stacks
plus unconsumed plus curtailed power does **not** reconstruct `power_in`. -/
theorem claim2_counterexample :
    (Supervisor.control cmConstV supC2 1000).map
        (fun r => dotQ r.on_or_waiting r.stack_power + r.power_left + r.curtailed_wind) =
      some 1999 ∧
    ((1999 : ℚ) ≠ 1000) := by
  have hf10 : ⌊(10 : ℚ)⌋ = 10 := by
    rw [Int.floor_eq_iff]
    norm_num
  have hf59 : ⌊(5/9 : ℚ)⌋ = 0 := by
    rw [Int.floor_eq_iff]
    norm_num
  constructor
  · norm_num [Supervisor.control, supC2, stackC2, distributePowerEqualEager,
      getHealthiestInactive, healthiestSel, inactIdx, argsort, argsortRel, controlPost,
      ControlType.isDeg, listSub, listAdd, dotQ, listModify, Stack.run, runIV,
      runH2DegPenalty, runPowerDegPenalty, runStack, runStackCore, runStackFinish,
      updateStatus, updateDegradation, updateDynamics, calcStackPower, turnStackOn,
      initStack, cmConstV, dtssZero, listMax, listMin, hf10, hf59, List.foldl,
      List.range_succ]
  · norm_num

/-- C2, amended: for every policy outcome (any per-stack power vector) and
every timestep, `control` computes
`curtailed_wind = max(0, power_in - Σ on_or_waiting[i]·stack_power[i])`; hence
the sum of allocated power over on-or-waiting stacks plus `curtailed_wind`
reconstructs `power_in` exactly when that sum does not exceed `power_in`.  The
returned `power_left` (unconsumed power) is a cell-model residual and takes no
part in an exact balance. -/
theorem claim2_amended (cm : CellModel) (sup : Supervisor) (P : List ℚ) (p : ℚ) :
    (controlPost cm sup P p).curtailed_wind =
      max 0 (p - dotQ (controlPost cm sup P p).on_or_waiting
        (controlPost cm sup P p).stack_power) ∧
    (dotQ (controlPost cm sup P p).on_or_waiting
        (controlPost cm sup P p).stack_power ≤ p →
      dotQ (controlPost cm sup P p).on_or_waiting
          (controlPost cm sup P p).stack_power +
        (controlPost cm sup P p).curtailed_wind = p) := by
  have h1 : (controlPost cm sup P p).stack_power = P := rfl
  have h2 : (controlPost cm sup P p).curtailed_wind =
      max 0 (p - dotQ (controlPost cm sup P p).on_or_waiting P) := rfl
  constructor
  · rw [h1]
    exact h2
  · intro hle
    rw [h1] at hle ⊢
    rw [h2, max_eq_right (by linarith)]
    ring

set_option maxHeartbeats 1600000 in
/-- C2, witness: the amended balance applied at a concrete idle supervisor
(`power_in = 5`, allocation `[0]`, nothing on or waiting):
`0 + curtailed = 5`. -/
theorem claim2_witness :
    dotQ (controlPost cmConstV supC2 [0] 5).on_or_waiting
        (controlPost cmConstV supC2 [0] 5).stack_power +
      (controlPost cmConstV supC2 [0] 5).curtailed_wind = 5 :=
  (claim2_amended cmConstV supC2 [0] 5).2
    (by
      have hf59 : ⌊(5/9 : ℚ)⌋ = 0 := by
        rw [Int.floor_eq_iff]
        norm_num
      norm_num [supC2, stackC2, controlPost, ControlType.isDeg, listSub, listAdd,
        dotQ, listModify, Stack.run, runIV, runH2DegPenalty, runPowerDegPenalty,
        runStack, runStackCore, runStackFinish, updateStatus, updateDegradation,
        updateDynamics, calcStackPower, initStack, cmConstV, dtssZero, listMax,
        listMin, hf59, List.foldl, List.range_succ])

/-! ### C3 — monotone degradation -/

/-- The reachability invariant behind monotone degradation: nonnegative
timestep and rate constants, nonnegative accumulators, the fatigue history in
step with the rainflow track, the on/off penalty bounded by the cycle count,
and `V_degradation` equal to the sum of its three components. -/
def DegInv (s : Stack) : Prop :=
  0 ≤ s.dt ∧ 0 ≤ s.rate_steady ∧ 0 ≤ s.rate_fatigue ∧ 0 ≤ s.rate_onoff ∧
  0 ≤ s.d_s ∧ 0 ≤ s.rf_track ∧ s.fatigue_history = s.rate_fatigue * s.rf_track ∧
  0 ≤ s.d_o ∧ s.d_o ≤ s.rate_onoff * (s.cycle_count : ℚ) ∧
  s.V_degradation = s.d_s + s.d_o + s.fatigue_history ∧ 0 ≤ s.cell_voltage

lemma degInv_V_nonneg (s : Stack) (h : DegInv s) : 0 ≤ s.V_degradation := by
  obtain ⟨hdt, hrs, hrfq, hro, hds, htr, hfh, hdo0, hdo, hV, hcv0⟩ := h
  rw [hV, hfh]
  have := mul_nonneg hrfq htr
  linarith

lemma runIV_snd (cm : CellModel) (s : Stack) (P : ℚ) :
    ∃ i, (runIV cm s P).2 = cm.calcCellVoltage i s.temperature := by
  simp only [runIV, runH2DegPenalty, runPowerDegPenalty]
  split_ifs <;> exact ⟨_, rfl⟩

lemma degInv_updateDegradation (cm : CellModel) (hrf : ∀ l, 0 ≤ cm.rfValue l)
    (s : Stack) (h : DegInv s) :
    DegInv (updateDegradation cm s) ∧
      s.V_degradation ≤ (updateDegradation cm s).V_degradation := by
  obtain ⟨hdt, hrs, hrfq, hro, hds, htr, hfh, hdo0, hdo, hV, hcv0⟩ := h
  have hds' := updateDegradation_d_s cm s
  have hdo' := updateDegradation_d_o cm s
  have hV' := updateDegradation_V cm s
  have hfh' : s.fatigue_history ≤ (updateDegradation cm s).fatigue_history ∧
      (updateDegradation cm s).fatigue_history =
        (updateDegradation cm s).rate_fatigue * (updateDegradation cm s).rf_track ∧
      0 ≤ (updateDegradation cm s).rf_track := by
    rcases updateDegradation_fatigue_cases cm s with ⟨h1, h2⟩ | ⟨h1, h2⟩
    · refine ⟨by rw [h1], ?_, by rw [h2]; exact htr⟩
      rw [h1, h2, updDeg_rate_fatigue]
      exact hfh
    · have htr' : s.rf_track ≤ (updateDegradation cm s).rf_track := by
        rw [h1]
        have := hrf (s.voltage_signal.filter (fun v => v ≠ 0))
        linarith
      refine ⟨?_, by rw [h2, updDeg_rate_fatigue], ?_⟩
      · rw [h2, hfh]
        exact mul_le_mul_of_nonneg_left htr' hrfq
      · rw [h1]
        have := hrf (s.voltage_signal.filter (fun v => v ≠ 0))
        linarith
  have hstep : 0 ≤ s.rate_steady * s.cell_voltage * s.dt := by positivity
  refine ⟨⟨?_, ?_, ?_, ?_, ?_, hfh'.2.2, hfh'.2.1, ?_, ?_, hV', ?_⟩, ?_⟩
  · rw [(updateDegradation_const cm s).1]; exact hdt
  · rw [updDeg_rate_steady]; exact hrs
  · rw [updDeg_rate_fatigue]; exact hrfq
  · rw [updDeg_rate_onoff]; exact hro
  · rw [hds']; linarith
  · rw [hdo']; positivity
  · rw [hdo', updDeg_rate_onoff, updDeg_cycle_count]
  · rw [updDeg_cell_voltage]; exact hcv0
  · rw [hV', hds', hdo', hV]
    have h1 := hfh'.1
    linarith

lemma degInv_runStackFinish (t : Stack) (v : ℚ) (h : DegInv t) (hv : 0 ≤ v) :
    DegInv (runStackFinish t v) ∧ (runStackFinish t v).V_degradation = t.V_degradation := by
  obtain ⟨hdt, hrs, hrfq, hro, hds, htr, hfh, hdo0, hdo, hV, hcv0⟩ := h
  refine ⟨⟨?_, ?_, ?_, ?_, ?_, ?_, ?_, ?_, ?_, ?_, ?_⟩, runFin_V_degradation t v⟩
  · rw [runFin_dt]; exact hdt
  · rw [runFin_rate_steady]; exact hrs
  · rw [runFin_rate_fatigue]; exact hrfq
  · rw [runFin_rate_onoff]; exact hro
  · rw [runFin_d_s]; exact hds
  · rw [runFin_rf_track]; exact htr
  · rw [runFin_fatigue_history, runFin_rate_fatigue, runFin_rf_track]; exact hfh
  · rw [runFin_d_o]; exact hdo0
  · rw [runFin_d_o, runFin_rate_onoff, runFin_cycle_count]; exact hdo
  · rw [runFin_V_degradation, runFin_d_s, runFin_d_o, runFin_fatigue_history]; exact hV
  · rw [runFin_cell_voltage]; exact hv

lemma degInv_step (cm : CellModel) (hcv : ∀ i t, 0 ≤ cm.calcCellVoltage i t)
    (hrf : ∀ l, 0 ≤ cm.rfValue l) (s : Stack) (op : StackOp) (h : DegInv s) :
    DegInv (applyOp cm s op) ∧ s.V_degradation ≤ (applyOp cm s op).V_degradation := by
  cases op with
  | turnOnOp =>
    show DegInv (turnStackOn s) ∧ s.V_degradation ≤ (turnStackOn s).V_degradation
    rcases turnStackOn_cases s with ht | ⟨-, t, ht⟩ <;> rw [ht] <;> exact ⟨h, le_rfl⟩
  | turnOffOp =>
    show DegInv (turnStackOff s) ∧ s.V_degradation ≤ (turnStackOff s).V_degradation
    rcases turnStackOff_cases s with ⟨ht, -, -⟩ | ht
    · rw [ht]; exact ⟨h, le_rfl⟩
    · rw [ht]
      obtain ⟨hdt, hrs, hrfq, hro, hds, htr, hfh, hdo0, hdo, hV, hcv0⟩ := h
      refine ⟨⟨hdt, hrs, hrfq, hro, hds, htr, hfh, hdo0, ?_, hV, hcv0⟩, le_rfl⟩
      show s.d_o ≤ s.rate_onoff * ((s.cycle_count + 1 : ℕ) : ℚ)
      push_cast
      have hx : s.rate_onoff * (s.cycle_count : ℚ) ≤
          s.rate_onoff * ((s.cycle_count : ℚ) + 1) :=
        mul_le_mul_of_nonneg_left (by linarith) hro
      linarith
  | runOp P =>
    show DegInv (Stack.run cm s P).stack ∧
      s.V_degradation ≤ (Stack.run cm s P).stack.V_degradation
    obtain ⟨hrs0, -⟩ := run_stack_fields cm s P
    rw [hrs0]
    have hst : DegInv (updateStatus s) ∧ (updateStatus s).V_degradation = s.V_degradation := by
      rcases updateStatus_cases s with hu | hu <;> rw [hu] <;> exact ⟨h, rfl⟩
    have hvpos : 0 ≤ (runIV cm (updateStatus s) P).2 := by
      obtain ⟨i, hi⟩ := runIV_snd cm (updateStatus s) P
      rw [hi]
      exact hcv _ _
    rcases runStackCore_cases cm (updateStatus s) (runIV cm (updateStatus s) P).1
        (runIV cm (updateStatus s) P).2 P with
      ⟨hon, a, u, h1, hu, hv⟩ | ⟨hon, hw, a, h1, -, hv⟩ | ⟨hon, hw, a, h1, -, hv⟩
    · rw [h1, hv]
      have hupd := degInv_updateDegradation cm hrf
        { updateStatus s with I := (runIV cm (updateStatus s) P).1 } hst.1
      have hv0 : 0 ≤ (if (updateStatus s).include_degradation_penalty = true then
          (runIV cm (updateStatus s) P).2 + (updateStatus s).V_degradation
          else (runIV cm (updateStatus s) P).2) := by
        split_ifs
        · exact add_nonneg hvpos (degInv_V_nonneg _ hst.1)
        · exact hvpos
      have hfin := degInv_runStackFinish
        { updateDegradation cm
            { updateStatus s with I := (runIV cm (updateStatus s) P).1 } with
          stack_state := a, uptime := u }
        (if (updateStatus s).include_degradation_penalty = true then
          (runIV cm (updateStatus s) P).2 + (updateStatus s).V_degradation
          else (runIV cm (updateStatus s) P).2)
        hupd.1 hv0
      refine ⟨hfin.1, ?_⟩
      rw [hfin.2]
      calc s.V_degradation = (updateStatus s).V_degradation := hst.2.symm
        _ ≤ _ := hupd.2
    · rw [h1, hv]
      have hupd := degInv_updateDegradation cm hrf
        { updateStatus s with
          stack_state := a
          uptime := (updateStatus s).uptime + (updateStatus s).dt
          I := (runIV cm (updateStatus s) P).1 } hst.1
      have hfin := degInv_runStackFinish
        (updateDegradation cm
          { updateStatus s with
            stack_state := a
            uptime := (updateStatus s).uptime + (updateStatus s).dt
            I := (runIV cm (updateStatus s) P).1 })
        (runIV cm (updateStatus s) P).2 hupd.1 hvpos
      refine ⟨hfin.1, ?_⟩
      rw [hfin.2]
      calc s.V_degradation = (updateStatus s).V_degradation := hst.2.symm
        _ ≤ _ := hupd.2
    · rw [h1, hv]
      have hfin := degInv_runStackFinish { updateStatus s with stack_state := a } 0
        hst.1 le_rfl
      refine ⟨hfin.1, ?_⟩
      rw [hfin.2]
      exact le_of_eq hst.2.symm

/-- C3: from construction with nonnegative timestep and degradation-rate
constants, and a cell model with nonnegative voltages and nonnegative rainflow
sums (the external `rainflow` library returns nonnegative cycle-weighted range
sums), `V_degradation` never decreases across any operation appended to any
operation sequence. -/
theorem claim3_monotone_degradation (cm : CellModel)
    (hcv : ∀ i t, 0 ≤ cm.calcCellVoltage i t) (hrf : ∀ l, 0 ≤ cm.rfValue l)
    (dt T n rs rfq ro : ℚ) (hdt : 0 ≤ dt) (hrs : 0 ≤ rs) (hrfq : 0 ≤ rfq)
    (hro : 0 ≤ ro) (inc hyd : Bool) (de : ℚ) (dts : DTSS)
    (ops : List StackOp) (op : StackOp) :
    (applyOps cm (initStack dt T n rs rfq ro inc hyd de dts) ops).V_degradation ≤
      (applyOps cm (initStack dt T n rs rfq ro inc hyd de dts) (ops ++ [op])).V_degradation := by
  have hinv : ∀ l (s : Stack), DegInv s → DegInv (applyOps cm s l) := by
    intro l
    induction l with
    | nil => exact fun s hs => hs
    | cons o rest ih =>
      intro s hs
      rw [applyOps_cons]
      exact ih _ (degInv_step cm hcv hrf s o hs).1
  have h0 : DegInv (initStack dt T n rs rfq ro inc hyd de dts) := by
    refine ⟨hdt, hrs, hrfq, hro, le_refl 0, le_refl 0, ?_, le_refl 0, ?_, ?_, le_refl 0⟩
    · show (0 : ℚ) = rfq * 0
      rw [mul_zero]
    · show (0 : ℚ) ≤ ro * ((0 : ℕ) : ℚ)
      simp
    · show (0 : ℚ) = 0 + 0 + 0
      norm_num
  rw [applyOps_append]
  exact (degInv_step cm hcv hrf _ op (hinv ops _ h0)).2

/-- C3, witness: monotonicity at a concrete trace (turn on, run, then one more
run step) under the constant-voltage cell model. -/
theorem claim3_witness :
    (applyOps cmConstV (initStack 1 25 1 1 1 1 true true 1 dtssZero)
        [StackOp.turnOnOp, StackOp.runOp 100]).V_degradation ≤
      (applyOps cmConstV (initStack 1 25 1 1 1 1 true true 1 dtssZero)
        ([StackOp.turnOnOp, StackOp.runOp 100] ++ [StackOp.runOp 50])).V_degradation :=
  claim3_monotone_degradation cmConstV (fun i t => by norm_num [cmConstV])
    (fun l => by norm_num [cmConstV]) 1 25 1 1 1 1 (by norm_num) (by norm_num)
    (by norm_num) (by norm_num) true true 1 dtssZero
    [StackOp.turnOnOp, StackOp.runOp 100] (StackOp.runOp 50)

/-! ### C4 — health-ranking selection -/

lemma argsortRel_total (l : List ℚ) : ∀ i j, argsortRel l i j ∨ argsortRel l j i := by
  intro i j
  rcases lt_trichotomy (l.getD i 0) (l.getD j 0) with h | h | h
  · exact Or.inl (Or.inl h)
  · rcases Nat.le_total i j with hij | hij
    · exact Or.inl (Or.inr ⟨h, hij⟩)
    · exact Or.inr (Or.inr ⟨h.symm, hij⟩)
  · exact Or.inr (Or.inl h)

lemma argsortRel_trans (l : List ℚ) :
    ∀ i j k, argsortRel l i j → argsortRel l j k → argsortRel l i k := by
  intro i j k hij hjk
  rcases hij with h1 | ⟨h1, h1'⟩ <;> rcases hjk with h2 | ⟨h2, h2'⟩
  · exact Or.inl (h1.trans h2)
  · exact Or.inl (h2 ▸ h1)
  · exact Or.inl (by rw [h1]; exact h2)
  · exact Or.inr ⟨h1.trans h2, h1'.trans h2'⟩

lemma argsort_perm (l : List ℚ) : List.Perm (argsort l) (List.range l.length) :=
  List.perm_insertionSort _ _

lemma argsort_sorted (l : List ℚ) : (argsort l).Pairwise (argsortRel l) := by
  haveI : IsTotal ℕ (argsortRel l) := ⟨argsortRel_total l⟩
  haveI : IsTrans ℕ (argsortRel l) := ⟨argsortRel_trans l⟩
  exact List.sorted_insertionSort _ _

lemma argsort_nodup (l : List ℚ) : (argsort l).Nodup :=
  (argsort_perm l).nodup_iff.mpr (List.nodup_range _)

lemma argsort_length (l : List ℚ) : (argsort l).length = l.length := by
  rw [(argsort_perm l).length_eq, List.length_range]

lemma argsort_mem_lt (l : List ℚ) {p : ℕ} (hp : p ∈ argsort l) : p < l.length := by
  have := (argsort_perm l).mem_iff.mp hp
  simpa using this

lemma sorted_nat_getD_lt {c : List ℕ} (hc : c.Pairwise (· < ·)) {p q : ℕ}
    (hp : p < c.length) (hq : q < c.length) (hpq : p < q) :
    c.getD p 0 < c.getD q 0 := by
  rw [List.getD_eq_getElem c 0 hp, List.getD_eq_getElem c 0 hq]
  exact List.pairwise_iff_getElem.mp hc p q hp hq hpq

lemma sorted_nat_getD_inj {c : List ℕ} (hc : c.Pairwise (· < ·)) {p q : ℕ}
    (hp : p < c.length) (hq : q < c.length) (hne : p ≠ q) :
    c.getD p 0 ≠ c.getD q 0 := by
  rcases Nat.lt_or_ge p q with h | h
  · exact ne_of_lt (sorted_nat_getD_lt hc hp hq h)
  · exact ne_of_gt (sorted_nat_getD_lt hc hq hp (lt_of_le_of_ne h (Ne.symm hne)))

lemma getD_map_deg (deg : List ℚ) (cand : List ℕ) {p : ℕ} (hp : p < cand.length) :
    (cand.map (fun i => deg.getD i 0)).getD p 0 = deg.getD (cand.getD p 0) 0 := by
  rw [List.getD_eq_getElem _ _ (by simpa using hp), List.getD_eq_getElem _ _ hp,
    List.getElem_map]

lemma getD_mem_of_lt {c : List ℕ} {p : ℕ} (hp : p < c.length) : c.getD p 0 ∈ c := by
  rw [List.getD_eq_getElem _ _ hp]
  exact List.getElem_mem hp

lemma mem_cand_getD {c : List ℕ} {j : ℕ} (hj : j ∈ c) :
    ∃ q, ∃ hq : q < c.length, c.getD q 0 = j := by
  obtain ⟨q, hq, hEq⟩ := List.mem_iff_getElem.mp hj
  refine ⟨q, hq, ?_⟩
  rw [List.getD_eq_getElem _ _ hq]
  exact hEq

lemma inactIdx_pairwise (active : List ℚ) : (inactIdx active).Pairwise (· < ·) :=
  (List.sorted_lt_range _).filter _

lemma actIdx_pairwise (active : List ℚ) : (actIdx active).Pairwise (· < ·) :=
  (List.sorted_lt_range _).filter _

lemma healthiestSel_char (active deg : List ℚ) (k : ℕ) :
    (healthiestSel active deg k).Nodup ∧
    (healthiestSel active deg k).length = min k (inactIdx active).length ∧
    (∀ i ∈ healthiestSel active deg k, i ∈ inactIdx active) ∧
    (∀ i ∈ healthiestSel active deg k, ∀ j ∈ inactIdx active,
      j ∉ healthiestSel active deg k →
        deg.getD i 0 < deg.getD j 0 ∨ (deg.getD i 0 = deg.getD j 0 ∧ i < j)) := by
  have hc : (inactIdx active).Pairwise (· < ·) := inactIdx_pairwise active
  have hS : healthiestSel active deg k =
      ((argsort ((inactIdx active).map (fun i => deg.getD i 0))).take k).map
        (fun p => (inactIdx active).getD p 0) := rfl
  set c := inactIdx active with hcdef
  set l := c.map (fun i => deg.getD i 0) with hldef
  have hlen_l : l.length = c.length := List.length_map _ _
  have hsorted : (argsort l).Pairwise (argsortRel l) := argsort_sorted l
  have hnd : (argsort l).Nodup := argsort_nodup l
  have hTD : (argsort l).take k ++ (argsort l).drop k = argsort l :=
    List.take_append_drop k (argsort l)
  have hcross : ∀ p ∈ (argsort l).take k, ∀ q ∈ (argsort l).drop k, argsortRel l p q := by
    intro p hp q hq
    rw [← hTD] at hsorted
    exact (List.pairwise_append.mp hsorted).2.2 p hp q hq
  have hmemT : ∀ p ∈ (argsort l).take k, p < c.length := by
    intro p hp
    have hmem : p ∈ argsort l := (List.take_subset _ _) hp
    have := argsort_mem_lt l hmem
    rwa [hlen_l] at this
  have hdisj : ∀ p ∈ (argsort l).take k, ∀ q ∈ (argsort l).drop k, p ≠ q := by
    intro p hp q hq h
    exact (List.disjoint_take_drop hnd le_rfl) hp (h ▸ hq)
  refine ⟨?_, ?_, ?_, ?_⟩
  · rw [hS]
    refine List.Nodup.map_on ?_ (hnd.sublist (List.take_sublist _ _))
    intro p hp q hq hfe
    by_contra hne
    exact sorted_nat_getD_inj hc (hmemT p hp) (hmemT q hq) hne hfe
  · rw [hS, List.length_map, List.length_take, argsort_length, hlen_l]
  · rw [hS]
    intro i hi
    obtain ⟨p, hp, rfl⟩ := List.mem_map.mp hi
    exact getD_mem_of_lt (hmemT p hp)
  · rw [hS]
    intro i hi j hj hjS
    obtain ⟨p, hpT, rfl⟩ := List.mem_map.mp hi
    obtain ⟨q, hq, hqj⟩ := mem_cand_getD hj
    have hqD : q ∈ (argsort l).drop k := by
      have hqmem : q ∈ argsort l := by
        rw [(argsort_perm l).mem_iff]
        exact List.mem_range.mpr (by rw [hlen_l]; exact hq)
      rw [← hTD] at hqmem
      rcases List.mem_append.mp hqmem with hqT | hqD
      · exact absurd (List.mem_map.mpr ⟨q, hqT, hqj⟩) hjS
      · exact hqD
    have hrel := hcross p hpT q hqD
    have hpq := hdisj p hpT q hqD
    have hpc := hmemT p hpT
    have hvp : l.getD p 0 = deg.getD (c.getD p 0) 0 := getD_map_deg deg c hpc
    have hvq : l.getD q 0 = deg.getD (c.getD q 0) 0 := getD_map_deg deg c hq
    rcases hrel with hlt | ⟨heq, hle⟩
    · left
      rw [← hqj, ← hvp, ← hvq]
      exact hlt
    · right
      have hplt : p < q := lt_of_le_of_ne hle hpq
      constructor
      · rw [← hqj, ← hvp, ← hvq]
        exact heq
      · rw [← hqj]
        exact sorted_nat_getD_lt hc hpc hq hplt

lemma illestSel_char (active deg : List ℚ) (k : ℕ) :
    (illestSel active deg k).Nodup ∧
    (illestSel active deg k).length = min k (actIdx active).length ∧
    (∀ i ∈ illestSel active deg k, i ∈ actIdx active) ∧
    (∀ i ∈ illestSel active deg k, ∀ j ∈ actIdx active,
      j ∉ illestSel active deg k →
        deg.getD j 0 < deg.getD i 0 ∨ (deg.getD i 0 = deg.getD j 0 ∧ j < i)) := by
  have hc : (actIdx active).Pairwise (· < ·) := actIdx_pairwise active
  have hS : illestSel active deg k =
      (((argsort ((actIdx active).map (fun i => deg.getD i 0))).reverse).take k).map
        (fun p => (actIdx active).getD p 0) := rfl
  set c := actIdx active with hcdef
  set l := c.map (fun i => deg.getD i 0) with hldef
  set rl := (argsort l).reverse with hrldef
  have hlen_l : l.length = c.length := List.length_map _ _
  have hsorted : (argsort l).Pairwise (argsortRel l) := argsort_sorted l
  have hsorted_r : rl.Pairwise (fun a b => argsortRel l b a) :=
    List.pairwise_reverse.mpr hsorted
  have hnd : rl.Nodup := List.nodup_reverse.mpr (argsort_nodup l)
  have hTD : rl.take k ++ rl.drop k = rl := List.take_append_drop k rl
  have hcross : ∀ p ∈ rl.take k, ∀ q ∈ rl.drop k, argsortRel l q p := by
    intro p hp q hq
    rw [← hTD] at hsorted_r
    exact (List.pairwise_append.mp hsorted_r).2.2 p hp q hq
  have hmemT : ∀ p ∈ rl.take k, p < c.length := by
    intro p hp
    have hmem : p ∈ rl := (List.take_subset _ _) hp
    have := argsort_mem_lt l (List.mem_reverse.mp hmem)
    rwa [hlen_l] at this
  have hdisj : ∀ p ∈ rl.take k, ∀ q ∈ rl.drop k, p ≠ q := by
    intro p hp q hq h
    exact (List.disjoint_take_drop hnd le_rfl) hp (h ▸ hq)
  refine ⟨?_, ?_, ?_, ?_⟩
  · rw [hS]
    refine List.Nodup.map_on ?_ (hnd.sublist (List.take_sublist _ _))
    intro p hp q hq hfe
    by_contra hne
    exact sorted_nat_getD_inj hc (hmemT p hp) (hmemT q hq) hne hfe
  · rw [hS, List.length_map, List.length_take, List.length_reverse, argsort_length, hlen_l]
  · rw [hS]
    intro i hi
    obtain ⟨p, hp, rfl⟩ := List.mem_map.mp hi
    exact getD_mem_of_lt (hmemT p hp)
  · rw [hS]
    intro i hi j hj hjS
    obtain ⟨p, hpT, rfl⟩ := List.mem_map.mp hi
    obtain ⟨q, hq, hqj⟩ := mem_cand_getD hj
    have hqD : q ∈ rl.drop k := by
      have hqmem : q ∈ rl := by
        rw [hrldef, List.mem_reverse, (argsort_perm l).mem_iff]
        exact List.mem_range.mpr (by rw [hlen_l]; exact hq)
      rw [← hTD] at hqmem
      rcases List.mem_append.mp hqmem with hqT | hqD
      · exact absurd (List.mem_map.mpr ⟨q, hqT, hqj⟩) hjS
      · exact hqD
    have hrel := hcross p hpT q hqD
    have hpq := hdisj p hpT q hqD
    have hpc := hmemT p hpT
    have hvp : l.getD p 0 = deg.getD (c.getD p 0) 0 := getD_map_deg deg c hpc
    have hvq : l.getD q 0 = deg.getD (c.getD q 0) 0 := getD_map_deg deg c hq
    rcases hrel with hlt | ⟨heq, hle⟩
    · left
      rw [← hqj, ← hvp, ← hvq]
      exact hlt
    · right
      have hqlt : q < p := lt_of_le_of_ne hle (Ne.symm hpq)
      constructor
      · rw [← hqj, ← hvp, ← hvq]
        exact heq.symm
      · rw [← hqj]
        exact sorted_nat_getD_lt hc hq hpc hqlt

/-- C4 counterexample. The spec claims `get_illest_active` breaks degradation
ties by ascending index and that exactly `k` stacks are always selected. With
both stacks active and equal degradations, the `np.flip` of the stable argsort
selects index 1, not index 0 (ties resolve by descending index); and with every
stack active, `get_healthiest_inactive` has no candidates and selects none, not
`k`. -/
theorem claim4_counterexample :
    illestSel [1, 1] [5, 5] 1 = [1] ∧
    healthiestSel [1, 1] [0, 0] 1 = [] ∧
    getIllestActive [1, 1] [5, 5] 1 = [1, 0] := by
  refine ⟨by decide, by decide, by decide⟩

/-- C4 (amended): `get_healthiest_inactive(active, deg, k)` selects
`min k (number of inactive stacks)` distinct inactive indices such that every
selected index beats every unselected inactive candidate by smaller degradation,
ties broken by ascending index; `get_illest_active(active, deg, k)` selects
`min k (number of active stacks)` distinct active indices such that every
selected index beats every unselected active candidate by larger degradation,
ties broken by DESCENDING index (an artifact of `np.flip` on the stable
argsort). -/
theorem claim4_amended (active deg : List ℚ) (k : ℕ) :
    ((healthiestSel active deg k).Nodup ∧
     (healthiestSel active deg k).length = min k (inactIdx active).length ∧
     (∀ i ∈ healthiestSel active deg k, i ∈ inactIdx active) ∧
     (∀ i ∈ healthiestSel active deg k, ∀ j ∈ inactIdx active,
       j ∉ healthiestSel active deg k →
         deg.getD i 0 < deg.getD j 0 ∨ (deg.getD i 0 = deg.getD j 0 ∧ i < j))) ∧
    ((illestSel active deg k).Nodup ∧
     (illestSel active deg k).length = min k (actIdx active).length ∧
     (∀ i ∈ illestSel active deg k, i ∈ actIdx active) ∧
     (∀ i ∈ illestSel active deg k, ∀ j ∈ actIdx active,
       j ∉ illestSel active deg k →
         deg.getD j 0 < deg.getD i 0 ∨ (deg.getD i 0 = deg.getD j 0 ∧ j < i))) :=
  ⟨healthiestSel_char active deg k, illestSel_char active deg k⟩

/-- C4 witness: with stacks 0 and 1 inactive and degradations `[7, 3, 9]`,
index 1 is selected as healthiest and dominates the unselected candidate 0. -/
theorem claim4_witness :
    ([7, 3, 9] : List ℚ).getD 1 0 < ([7, 3, 9] : List ℚ).getD 0 0 ∨
      (([7, 3, 9] : List ℚ).getD 1 0 = ([7, 3, 9] : List ℚ).getD 0 0 ∧ 1 < 0) :=
  (claim4_amended [0, 0, 1] [7, 3, 9] 1).1.2.2.2 1 (by decide) 0 (by decide)
    (by decide)
